import Mathlib

namespace Rfvp

/-- Error type standing for anyhow::Error; only the presence of an error
matters to the properties below, messages are informal. -/
abbrev Err := String

/-- Modelled from the spec: the constant payload tag carried by stack slots
(rfvp_core::format::scenario::variant::Variant is not under src/).  The spec
says pushes carry the constant's semantic kind: nil / true / int / float /
string.  Float payloads are carried as raw 32-bit patterns since the core
never computes on them. -/
inductive Variant where
  | Nil : Variant
  | True : Variant
  | Int (v : Int) : Variant
  | Float (bits : Nat) : Variant
  | Str (s : String) : Variant
deriving Repr, DecidableEq
mutual

/-- NamedVariant from ir.rs: a reference to a value-producing location. -/
inductive NamedVariant where
  | StackIndexed (name : String) (variant : Variant) : NamedVariant
  | ReturnValue : NamedVariant
  | Global (slot : Nat) : NamedVariant
  | Expr (expr : Statement) : NamedVariant

/-- Statement from ir.rs: the IR tagged union; `address` is the byte address
of the originating opcode. -/
inductive Statement where
  | Call (address : Nat) (target : Nat) (args : List NamedVariant) : Statement
  | Syscall (address : Nat) (syscall_name : String) (args : List NamedVariant) : Statement
  | Return (address : Nat) (has_value : Bool) : Statement
  | Jmp (address : Nat) (target : Nat) : Statement
  | Jz (address : Nat) (target : Nat) (condition : NamedVariant) : Statement
  | GlobalTableAccess (address : Nat) (tlb : NamedVariant) (slot : NamedVariant) : Statement
  | LocalTableAccess (address : Nat) (tlb : NamedVariant) (slot : NamedVariant) : Statement
  | BinaryOp (address : Nat) (op : String) (lhs : NamedVariant) (rhs : NamedVariant) : Statement
  | UnaryOp (address : Nat) (op : String) (operand : NamedVariant) : Statement
  | Assign (address : Nat) (target : NamedVariant) (value : NamedVariant) : Statement

end

/-- Interpretation of a u32 value as an i8 (Rust `as i8` narrowing cast):
keep the low byte and read it as a signed two's-complement byte. -/
def i8OfU32 (n : Nat) : Int :=
  if n % 256 < 128 then ((n % 256 : Nat) : Int) else ((n % 256 : Nat) : Int) - 256

/-- NamedVariant::from_arg (ir.rs).  The Rust code rejects `index >= -1`,
then computes `index.abs() as u32 - 2`.  For `index = -128` the i8 `abs`
wraps to `-128` (release overflow semantics), which sign-extends to the u32
4294967168, so the slot number becomes 4294967166. -/
def NamedVariant.from_arg (index : Int) (variant : Variant) : Except Err NamedVariant :=
  if index ≥ -1 then
    .error "invalid argument index"
  else
    let absWrapped : Int := if index = -128 then -128 else (index.natAbs : Int)
    let u : Nat := (absWrapped.emod 4294967296).toNat
    let k : Nat := (u + 4294967296 - 2) % 4294967296
    .ok (.StackIndexed ("arg" ++ toString k) variant)

/-- NamedVariant::from_local (ir.rs): local index must be non-negative. -/
def NamedVariant.from_local (index : Int) (variant : Variant) : Except Err NamedVariant :=
  if index < 0 then
    .error "invalid local index"
  else
    .ok (.StackIndexed ("local" ++ toString index) variant)

/-- NamedVariant::from_global (ir.rs). -/
def NamedVariant.from_global (slot : Nat) : NamedVariant :=
  .Global slot

/-- NamedVariant::from_return_value (ir.rs). -/
def NamedVariant.from_return_value : NamedVariant :=
  .ReturnValue

/-- NamedVariant::from_expr (ir.rs). -/
def NamedVariant.from_expr (expr : Statement) : NamedVariant :=
  .Expr expr

/-- NamedVariant::is_same_register (ir.rs): defined only between two
StackIndexed values, comparing their derived names. -/
def NamedVariant.is_same_register : NamedVariant → NamedVariant → Option Bool
  | .StackIndexed n1 _, .StackIndexed n2 _ => some (n1 == n2)
  | _, _ => none

/-- StackAnalyzer from ir.rs: the symbolic per-routine stack.
`local_variables` is the Vec backing both the fixed locals and the operand
area; `cur_top` is the u32 top-of-stack counter. -/
structure StackAnalyzer where
  local_count : Nat
  args_count : Nat
  cur_top : Nat
  local_variables : List NamedVariant

/-- StackAnalyzer::new (ir.rs): seed `locals` placeholder local slots (the Rust parameter is named `local`, a Lean keyword). -/
def StackAnalyzer.new (locals : Nat) (args : Nat) : StackAnalyzer :=
  { local_count := locals
    args_count := args
    cur_top := locals
    local_variables :=
      (List.range locals).map (fun i => .StackIndexed ("local" ++ toString i) .Nil) }

/-- StackAnalyzer::push (ir.rs): name the new entry after `cur_top as i8`
(the narrowing cast is in the source), append it to the Vec, bump the top.
The unguarded u32 increment `cur_top += 1` wraps at 2^32 (release overflow
semantics, as for the abs in from_arg). -/
def StackAnalyzer.push (a : StackAnalyzer) (variant : Variant) : Except Err StackAnalyzer := do
  let var ← NamedVariant.from_local (i8OfU32 a.cur_top) variant
  .ok { a with
        local_variables := a.local_variables ++ [var]
        cur_top := (a.cur_top + 1) % 4294967296 }

/-- StackAnalyzer::push_named (ir.rs): append and bump (the u32 increment
wrapping at 2^32), never fails. -/
def StackAnalyzer.push_named (a : StackAnalyzer) (named : NamedVariant) : Except Err StackAnalyzer :=
  .ok { a with
        local_variables := a.local_variables ++ [named]
        cur_top := (a.cur_top + 1) % 4294967296 }

/-- StackAnalyzer::push_nil (ir.rs). -/
def StackAnalyzer.push_nil (a : StackAnalyzer) : Except Err StackAnalyzer :=
  a.push .Nil

/-- StackAnalyzer::push_true (ir.rs). -/
def StackAnalyzer.push_true (a : StackAnalyzer) : Except Err StackAnalyzer :=
  a.push .True

/-- StackAnalyzer::push_int (ir.rs). -/
def StackAnalyzer.push_int (a : StackAnalyzer) (value : Int) : Except Err StackAnalyzer :=
  a.push (.Int value)

/-- StackAnalyzer::push_float (ir.rs); the f32 is carried as raw bits. -/
def StackAnalyzer.push_float (a : StackAnalyzer) (bits : Nat) : Except Err StackAnalyzer :=
  a.push (.Float bits)

/-- StackAnalyzer::push_string (ir.rs). -/
def StackAnalyzer.push_string (a : StackAnalyzer) (value : String) : Except Err StackAnalyzer :=
  a.push (.Str value)

/-- StackAnalyzer::push_global (ir.rs). -/
def StackAnalyzer.push_global (a : StackAnalyzer) (slot : Nat) : Except Err StackAnalyzer :=
  a.push_named (NamedVariant.from_global slot)

/-- StackAnalyzer::push_stack (ir.rs).  Non-negative indices below
`local_count as i8` clone the local slot (a Rust index panic for an
out-of-range Vec access is modelled as an error); indices below -1 build a
synthetic argument reference; anything else is an error. -/
def StackAnalyzer.push_stack (a : StackAnalyzer) (idx : Int) : Except Err StackAnalyzer :=
  if idx ≥ 0 ∧ idx < i8OfU32 a.local_count then
    match a.local_variables.get? idx.toNat with
    | some tmp => a.push_named tmp
    | none => .error "panic: index out of bounds"
  else if idx < -1 then do
    let tmp ← NamedVariant.from_arg idx .Nil
    a.push_named tmp
  else
    .error "invalid stack index"

/-- StackAnalyzer::push_top (ir.rs): duplicate the slot below `cur_top`. -/
def StackAnalyzer.push_top (a : StackAnalyzer) : Except Err StackAnalyzer :=
  if a.cur_top > 0 then
    match a.local_variables.get? (a.cur_top - 1) with
    | some tmp => a.push_named tmp
    | none => .error "panic: index out of bounds"
  else
    .error "stack underflow"

/-- StackAnalyzer::push_return_value (ir.rs). -/
def StackAnalyzer.push_return_value (a : StackAnalyzer) : Except Err StackAnalyzer :=
  a.push_named NamedVariant.from_return_value

/-- StackAnalyzer::push_expr (ir.rs). -/
def StackAnalyzer.push_expr (a : StackAnalyzer) (expr : Statement) : Except Err StackAnalyzer :=
  a.push_named (NamedVariant.from_expr expr)

/-- StackAnalyzer::pop (ir.rs): underflow unless `cur_top > local_count`;
otherwise decrement the top, read that Vec slot, and reset the slot to a
fresh nil placeholder.  Note the Vec is not truncated. -/
def StackAnalyzer.pop (a : StackAnalyzer) : Except Err (NamedVariant × StackAnalyzer) :=
  if a.cur_top > a.local_count then
    let t := a.cur_top - 1
    match a.local_variables.get? t with
    | some tmp =>
        .ok (tmp,
          { a with
            cur_top := t
            local_variables :=
              a.local_variables.set t (.StackIndexed ("local" ++ toString t) .Nil) })
    | none => .error "panic: index out of bounds"
  else
    .error "stack underflow"

/-- StackAnalyzer::get (ir.rs): non-negative indices read the raw Vec slot
(without any bound check against local_count; an out-of-range access is a
Rust panic, modelled as an error); indices below -1 build an argument
reference; -1 is an error. -/
def StackAnalyzer.get (a : StackAnalyzer) (idx : Int) : Except Err NamedVariant :=
  if idx ≥ 0 then
    match a.local_variables.get? idx.toNat with
    | some v => .ok v
    | none => .error "panic: index out of bounds"
  else if idx < -1 then
    NamedVariant.from_arg idx .Nil
  else
    .error "invalid stack index"

/-- StackAnalyzer::current_stack_top (ir.rs). -/
def StackAnalyzer.current_stack_top (a : StackAnalyzer) : Nat :=
  a.cur_top

/-- Decidable success test for an Except value. -/
def exceptIsOk {α : Type} (e : Except Err α) : Bool :=
  match e with
  | .ok _ => true
  | .error _ => false

/-- One public StackAnalyzer operation, for quantifying over arbitrary
operation sequences. -/
inductive StackOp where
  | push_nil : StackOp
  | push_true : StackOp
  | push_int (v : Int) : StackOp
  | push_float (b : Nat) : StackOp
  | push_string (s : String) : StackOp
  | push_global (k : Nat) : StackOp
  | push_stack (i : Int) : StackOp
  | push_top : StackOp
  | push_return_value : StackOp
  | push_expr (s : Statement) : StackOp
  | pop : StackOp
  | get (i : Int) : StackOp

/-- Apply one operation; a failing operation leaves the analyzer unchanged
(the Rust methods perform no mutation before bailing, and `get` takes
`&self`). -/
def applyOp (a : StackAnalyzer) (op : StackOp) : StackAnalyzer :=
  match op with
  | .push_nil => match a.push_nil with | .ok a' => a' | .error _ => a
  | .push_true => match a.push_true with | .ok a' => a' | .error _ => a
  | .push_int v => match a.push_int v with | .ok a' => a' | .error _ => a
  | .push_float b => match a.push_float b with | .ok a' => a' | .error _ => a
  | .push_string s => match a.push_string s with | .ok a' => a' | .error _ => a
  | .push_global k => match a.push_global k with | .ok a' => a' | .error _ => a
  | .push_stack i => match a.push_stack i with | .ok a' => a' | .error _ => a
  | .push_top => match a.push_top with | .ok a' => a' | .error _ => a
  | .push_return_value => match a.push_return_value with | .ok a' => a' | .error _ => a
  | .push_expr s => match a.push_expr s with | .ok a' => a' | .error _ => a
  | .pop => match a.pop with | .ok (_, a') => a' | .error _ => a
  | .get _ => a

/-- The analyzer reached from StackAnalyzer::new by a sequence of
operations. -/
def runOps (locals : Nat) (args : Nat) (ops : List StackOp) : StackAnalyzer :=
  ops.foldl applyOp (StackAnalyzer.new locals args)

/-- Modelled from the spec: the syscall record returned by the binary
container collaborator (`get_syscall(id) -> Option of name and declared
argument count`); rfvp_core::format::scenario::Scenario is not under src/. -/
structure SyscallDesc where
  name : String
  args : Nat

/-- Modelled from the spec: the external binary-container collaborator.  It
exposes fixed-width little-endian reads at absolute byte offsets, a
syscall-lookup by numeric id, the routine-stream end offset
(`get_sys_desc_offset`), and length-prefixed text decoding with a selectable
encoding (modelled as the oracle `decode_str` taking offset and length). -/
structure Scenario where
  bytes : List Nat
  syscalls : Nat → Option SyscallDesc
  sys_desc_offset : Nat
  decode_str : Nat → Nat → Except Err String

/-- Modelled from the spec: read_u8 at an absolute offset. -/
def Scenario.read_u8 (s : Scenario) (off : Nat) : Except Err Nat :=
  match s.bytes.get? off with
  | some b => .ok (b % 256)
  | none => .error "read out of range"

/-- Modelled from the spec: read_i8 at an absolute offset. -/
def Scenario.read_i8 (s : Scenario) (off : Nat) : Except Err Int := do
  let b ← s.read_u8 off
  .ok (i8OfU32 b)

/-- Modelled from the spec: little-endian read_u16. -/
def Scenario.read_u16 (s : Scenario) (off : Nat) : Except Err Nat := do
  let b0 ← s.read_u8 off
  let b1 ← s.read_u8 (off + 1)
  .ok (b0 + 256 * b1)

/-- Modelled from the spec: little-endian read_i16. -/
def Scenario.read_i16 (s : Scenario) (off : Nat) : Except Err Int := do
  let u ← s.read_u16 off
  .ok (if u < 32768 then (u : Int) else (u : Int) - 65536)

/-- Modelled from the spec: little-endian read_u32. -/
def Scenario.read_u32 (s : Scenario) (off : Nat) : Except Err Nat := do
  let b0 ← s.read_u8 off
  let b1 ← s.read_u8 (off + 1)
  let b2 ← s.read_u8 (off + 2)
  let b3 ← s.read_u8 (off + 3)
  .ok (b0 + 256 * b1 + 65536 * b2 + 16777216 * b3)

/-- Modelled from the spec: little-endian read_i32. -/
def Scenario.read_i32 (s : Scenario) (off : Nat) : Except Err Int := do
  let u ← s.read_u32 off
  .ok (if u < 2147483648 then (u : Int) else (u : Int) - 4294967296)

/-- Modelled from the spec: read_f32 returns the raw 32-bit pattern; the
core never computes on float payloads. -/
def Scenario.read_f32 (s : Scenario) (off : Nat) : Except Err Nat :=
  s.read_u32 off

/-- Modelled from the spec: read_cstring decodes `len` bytes at `off` with
the selected text encoding (oracle). -/
def Scenario.read_cstring (s : Scenario) (off : Nat) (len : Nat) : Except Err String :=
  s.decode_str off len

/-- Modelled from the spec: get_syscall. -/
def Scenario.get_syscall (s : Scenario) (id : Nat) : Option SyscallDesc :=
  s.syscalls id

/-- Modelled from the spec: get_sys_desc_offset, the exclusive upper bound
of the routine instruction stream. -/
def Scenario.get_sys_desc_offset (s : Scenario) : Nat :=
  s.sys_desc_offset

/-- Modelled from the spec: the opcode enumeration
(rfvp_core::format::scenario::instructions::Opcode is not under src/); the
numbering 0x00..0x27 follows the per-handler doc comments in disasm.rs and
the spec's dispatch table. -/
inductive Opcode where
  | Nop | InitStack | Call | Syscall | Ret | RetV | Jmp | Jz
  | PushNil | PushTrue | PushI32 | PushI16 | PushI8 | PushF32 | PushString
  | PushGlobal | PushStack | PushGlobalTable | PushLocalTable | PushTop
  | PushReturn | PopGlobal | PopStack | PopGlobalTable | PopLocalTable
  | Neg | Add | Sub | Mul | Div | Mod | BitTest | And | Or
  | SetE | SetNE | SetG | SetLE | SetL | SetGE
deriving Repr, DecidableEq
/-- Modelled from the spec: Opcode::try_from on the opcode byte; bytes
outside 0x00..0x27 are not in the known set. -/
def Opcode.tryFrom (n : Nat) : Option Opcode :=
  if n = 0x00 then some .Nop
  else if n = 0x01 then some .InitStack
  else if n = 0x02 then some .Call
  else if n = 0x03 then some .Syscall
  else if n = 0x04 then some .Ret
  else if n = 0x05 then some .RetV
  else if n = 0x06 then some .Jmp
  else if n = 0x07 then some .Jz
  else if n = 0x08 then some .PushNil
  else if n = 0x09 then some .PushTrue
  else if n = 0x0A then some .PushI32
  else if n = 0x0B then some .PushI16
  else if n = 0x0C then some .PushI8
  else if n = 0x0D then some .PushF32
  else if n = 0x0E then some .PushString
  else if n = 0x0F then some .PushGlobal
  else if n = 0x10 then some .PushStack
  else if n = 0x11 then some .PushGlobalTable
  else if n = 0x12 then some .PushLocalTable
  else if n = 0x13 then some .PushTop
  else if n = 0x14 then some .PushReturn
  else if n = 0x15 then some .PopGlobal
  else if n = 0x16 then some .PopStack
  else if n = 0x17 then some .PopGlobalTable
  else if n = 0x18 then some .PopLocalTable
  else if n = 0x19 then some .Neg
  else if n = 0x1A then some .Add
  else if n = 0x1B then some .Sub
  else if n = 0x1C then some .Mul
  else if n = 0x1D then some .Div
  else if n = 0x1E then some .Mod
  else if n = 0x1F then some .BitTest
  else if n = 0x20 then some .And
  else if n = 0x21 then some .Or
  else if n = 0x22 then some .SetE
  else if n = 0x23 then some .SetNE
  else if n = 0x24 then some .SetG
  else if n = 0x25 then some .SetLE
  else if n = 0x26 then some .SetL
  else if n = 0x27 then some .SetGE
  else none

/-- Function from disasm.rs: one discovered routine. -/
structure Function where
  address : Nat
  args_count : Nat
  locals_count : Nat
  statements : List Statement

/-- Disassembler state from disasm.rs, minus the owned Scenario (which is
immutable and passed explicitly to every handler here). -/
structure Disassembler where
  cursor : Nat
  functions : List (Nat × Function)
  stack_analyzer : Option StackAnalyzer
  current_function_address : Option Nat

/-- HashMap::get on the functions table. -/
def lookupFn (fs : List (Nat × Function)) (k : Nat) : Option Function :=
  (fs.find? (fun p => p.1 == k)).map (fun p => p.2)

/-- HashMap::insert on the functions table (replacing any previous binding). -/
def insertFn (fs : List (Nat × Function)) (k : Nat) (f : Function) : List (Nat × Function) :=
  (k, f) :: fs.filter (fun p => p.1 ≠ k)

/-- Disassembler::new's state initialization: cursor starts past the fixed
4-byte header, with no routines, no analyzer, no active routine. -/
def Disassembler.initState : Disassembler :=
  { cursor := 4, functions := [], stack_analyzer := none, current_function_address := none }

/-- Disassembler::rewind (disasm.rs): cursor back to 4, active routine and
analyzer cleared. -/
def Disassembler.rewind (st : Disassembler) : Disassembler :=
  { st with cursor := 4, current_function_address := none, stack_analyzer := none }

/-- Disassembler::push_statement_to_current_function (disasm.rs). -/
def Disassembler.push_statement_to_current_function (st : Disassembler) (statement : Statement) :
    Except Err Disassembler :=
  match st.current_function_address with
  | some addr =>
    match lookupFn st.functions addr with
    | some func =>
        .ok { st with functions :=
                (insertFn st.functions addr
                  { func with statements := func.statements ++ [statement] }) }
    | none => .error "function not found"
  | none => .error "current function address is None"

/-- Disassembler::nop (disasm.rs). -/
def Disassembler.nop (st : Disassembler) : Except Err Disassembler :=
  .ok { st with cursor := st.cursor + 1 }

/-- Disassembler::one_byte_bypass (disasm.rs). -/
def Disassembler.one_byte_bypass (st : Disassembler) : Except Err Disassembler :=
  .ok { st with cursor := st.cursor + 1 }

/-- Disassembler::two_bytes_bypass (disasm.rs). -/
def Disassembler.two_bytes_bypass (st : Disassembler) : Except Err Disassembler :=
  .ok { st with cursor := st.cursor + 2 }

/-- Disassembler::three_bytes_bypass (disasm.rs). -/
def Disassembler.three_bytes_bypass (st : Disassembler) : Except Err Disassembler :=
  .ok { st with cursor := st.cursor + 3 }

/-- Disassembler::five_bytes_bypass (disasm.rs). -/
def Disassembler.five_bytes_bypass (st : Disassembler) : Except Err Disassembler :=
  .ok { st with cursor := st.cursor + 5 }

/-- Rust `as u8` cast of an i8 value. -/
def u8OfI8 (i : Int) : Nat :=
  ((i + 256).emod 256).toNat

/-- Disassembler::init_stack (disasm.rs, pass 2): skip opcode and the two
count bytes, then (re)establish the active routine and a fresh analyzer
from the counts recorded during pass 1. -/
def Disassembler.init_stack (st : Disassembler) : Except Err Disassembler :=
  let addr := st.cursor
  let cursor := st.cursor + 1 + 1 + 1
  match lookupFn st.functions addr with
  | some func =>
      .ok { st with
            cursor := cursor
            stack_analyzer := some (StackAnalyzer.new func.locals_count func.args_count)
            current_function_address := some addr }
  | none => .error "function not found"

/-- Disassembler::init_stack_bypass (disasm.rs, pass 1): read the two i8
counts, record the Function (counts cast back to u8). -/
def Disassembler.init_stack_bypass (st : Disassembler) (scenario : Scenario) :
    Except Err Disassembler := do
  let addr := st.cursor
  let args_count ← scenario.read_i8 (st.cursor + 1)
  let locals_count ← scenario.read_i8 (st.cursor + 2)
  .ok { st with
        cursor := st.cursor + 3
        functions :=
          insertFn st.functions addr
            { address := addr
              args_count := u8OfI8 args_count
              locals_count := u8OfI8 locals_count
              statements := [] } }

/-- Disassembler::push_string_bypass (disasm.rs, pass 1): skip opcode, the
length byte, and the string payload. -/
def Disassembler.push_string_bypass (st : Disassembler) (scenario : Scenario) :
    Except Err Disassembler := do
  let len ← scenario.read_u8 (st.cursor + 1)
  .ok { st with cursor := st.cursor + 1 + 1 + len }

/-- Pop `n` entries off the analyzer, collecting them in pop order (the
`for _ in 0..count` arg-collection loops in disasm.rs). -/
def popN (sa : StackAnalyzer) : Nat → Except Err (List NamedVariant × StackAnalyzer)
  | 0 => .ok ([], sa)
  | n + 1 => do
    let (v, sa') ← sa.pop
    let (vs, sa'') ← popN sa' n
    .ok (v :: vs, sa'')

/-- Disassembler::call (disasm.rs): read the u32 target, look up the callee
recorded during pass 1, pop its declared arg count off the active analyzer,
and append a Call statement. -/
def Disassembler.call (st : Disassembler) (scenario : Scenario) : Except Err Disassembler := do
  let addr := st.cursor
  let target ← scenario.read_u32 (st.cursor + 1)
  let cursor := st.cursor + 1 + 4
  match lookupFn st.functions target with
  | none => .error "function not found"
  | some func =>
    match st.stack_analyzer with
    | none => .error "stack analyzer not found"
    | some sa => do
      let (args, sa') ← popN sa func.args_count
      let st' := { st with cursor := cursor, stack_analyzer := some sa' }
      st'.push_statement_to_current_function (.Call addr target args)

/-- Disassembler::syscall (disasm.rs): look the syscall up by id, pop its
declared arg count, append a Syscall statement. -/
def Disassembler.syscall (st : Disassembler) (scenario : Scenario) : Except Err Disassembler := do
  let addr := st.cursor
  let id ← scenario.read_u16 (st.cursor + 1)
  let cursor := st.cursor + 1 + 2
  match scenario.get_syscall id with
  | none => .error "syscall not found"
  | some sc =>
    match st.stack_analyzer with
    | none => .error "stack analyzer not found"
    | some sa => do
      let (args, sa') ← popN sa sc.args
      let st' := { st with cursor := cursor, stack_analyzer := some sa' }
      st'.push_statement_to_current_function (.Syscall addr sc.name args)

/-- Disassembler::ret (disasm.rs). -/
def Disassembler.ret (st : Disassembler) : Except Err Disassembler := do
  let addr := st.cursor
  let st' := { st with cursor := st.cursor + 1 }
  st'.push_statement_to_current_function (.Return addr false)

/-- Disassembler::retv (disasm.rs). -/
def Disassembler.retv (st : Disassembler) : Except Err Disassembler := do
  let addr := st.cursor
  let st' := { st with cursor := st.cursor + 1 }
  st'.push_statement_to_current_function (.Return addr true)

/-- Disassembler::jmp (disasm.rs). -/
def Disassembler.jmp (st : Disassembler) (scenario : Scenario) : Except Err Disassembler := do
  let addr := st.cursor
  let target ← scenario.read_u32 (st.cursor + 1)
  let st' := { st with cursor := st.cursor + 1 + 4 }
  st'.push_statement_to_current_function (.Jmp addr target)

/-- Disassembler::jz (disasm.rs): pop the condition. -/
def Disassembler.jz (st : Disassembler) (scenario : Scenario) : Except Err Disassembler := do
  let addr := st.cursor
  let target ← scenario.read_u32 (st.cursor + 1)
  let cursor := st.cursor + 1 + 4
  match st.stack_analyzer with
  | none => .error "stack analyzer not found"
  | some sa => do
    let (condition, sa') ← sa.pop
    let st' := { st with cursor := cursor, stack_analyzer := some sa' }
    st'.push_statement_to_current_function (.Jz addr target condition)

/-- Lift an analyzer-only mutation into a disassembler step advancing the
cursor by `k` (the common shape of the push-constant handlers). -/
def Disassembler.withAnalyzer (st : Disassembler) (k : Nat)
    (f : StackAnalyzer → Except Err StackAnalyzer) : Except Err Disassembler :=
  match st.stack_analyzer with
  | none => .error "stack analyzer not found"
  | some sa =>
    match f sa with
    | .ok sa' => .ok { st with cursor := st.cursor + k, stack_analyzer := some sa' }
    | .error e => .error e

/-- Disassembler::push_nil (disasm.rs). -/
def Disassembler.push_nil (st : Disassembler) : Except Err Disassembler :=
  st.withAnalyzer 1 (fun sa => sa.push_nil)

/-- Disassembler::push_true (disasm.rs). -/
def Disassembler.push_true (st : Disassembler) : Except Err Disassembler :=
  st.withAnalyzer 1 (fun sa => sa.push_true)

/-- Disassembler::push_i32 (disasm.rs). -/
def Disassembler.push_i32 (st : Disassembler) (scenario : Scenario) : Except Err Disassembler := do
  let value ← scenario.read_i32 (st.cursor + 1)
  st.withAnalyzer 5 (fun sa => sa.push_int value)

/-- Disassembler::push_i16 (disasm.rs): the i16 is sign-extended to i32. -/
def Disassembler.push_i16 (st : Disassembler) (scenario : Scenario) : Except Err Disassembler := do
  let value ← scenario.read_i16 (st.cursor + 1)
  st.withAnalyzer 3 (fun sa => sa.push_int value)

/-- Disassembler::push_i8 (disasm.rs): the i8 is sign-extended to i32. -/
def Disassembler.push_i8 (st : Disassembler) (scenario : Scenario) : Except Err Disassembler := do
  let value ← scenario.read_i8 (st.cursor + 1)
  st.withAnalyzer 2 (fun sa => sa.push_int value)

/-- Disassembler::push_f32 (disasm.rs). -/
def Disassembler.push_f32 (st : Disassembler) (scenario : Scenario) : Except Err Disassembler := do
  let bits ← scenario.read_f32 (st.cursor + 1)
  st.withAnalyzer 5 (fun sa => sa.push_float bits)

/-- Disassembler::push_string (disasm.rs): length byte, then decoded text. -/
def Disassembler.push_string (st : Disassembler) (scenario : Scenario) : Except Err Disassembler := do
  let len ← scenario.read_u8 (st.cursor + 1)
  let s ← scenario.read_cstring (st.cursor + 2) len
  st.withAnalyzer (1 + 1 + len) (fun sa => sa.push_string s)

/-- Disassembler::push_global (disasm.rs). -/
def Disassembler.push_global (st : Disassembler) (scenario : Scenario) : Except Err Disassembler := do
  let key ← scenario.read_u16 (st.cursor + 1)
  st.withAnalyzer 3 (fun sa => sa.push_global key)

/-- Disassembler::push_stack (disasm.rs). -/
def Disassembler.push_stack (st : Disassembler) (scenario : Scenario) : Except Err Disassembler := do
  let offset ← scenario.read_i8 (st.cursor + 1)
  st.withAnalyzer 2 (fun sa => sa.push_stack offset)

/-- Disassembler::push_global_table (disasm.rs): pop the key-selector, emit
a GlobalTableAccess, push it back as an Expr. -/
def Disassembler.push_global_table (st : Disassembler) (scenario : Scenario) :
    Except Err Disassembler := do
  let addr := st.cursor
  let key ← scenario.read_u16 (st.cursor + 1)
  st.withAnalyzer 3 (fun sa => do
    let table := NamedVariant.from_global key
    let (table_key, sa') ← sa.pop
    sa'.push_expr (.GlobalTableAccess addr table table_key))

/-- Disassembler::push_local_table (disasm.rs): resolve the local/arg index
as the table (get, before the pop), pop the key-selector, emit a
LocalTableAccess, push it back as an Expr. -/
def Disassembler.push_local_table (st : Disassembler) (scenario : Scenario) :
    Except Err Disassembler := do
  let addr := st.cursor
  let idx ← scenario.read_i8 (st.cursor + 1)
  st.withAnalyzer 2 (fun sa => do
    let table ← sa.get idx
    let (table_key, sa') ← sa.pop
    sa'.push_expr (.LocalTableAccess addr table table_key))

/-- Disassembler::push_top (disasm.rs). -/
def Disassembler.push_top (st : Disassembler) : Except Err Disassembler :=
  st.withAnalyzer 1 (fun sa => sa.push_top)

/-- Disassembler::push_return_value (disasm.rs). -/
def Disassembler.push_return_value (st : Disassembler) : Except Err Disassembler :=
  st.withAnalyzer 1 (fun sa => sa.push_return_value)

/-- Disassembler::pop_global (disasm.rs): pop the value, assign it to the
global slot named by the u16 key. -/
def Disassembler.pop_global (st : Disassembler) (scenario : Scenario) : Except Err Disassembler := do
  let addr := st.cursor
  let key ← scenario.read_u16 (st.cursor + 1)
  let cursor := st.cursor + 1 + 2
  match st.stack_analyzer with
  | none => .error "stack analyzer not found"
  | some sa => do
    let (right, sa') ← sa.pop
    let left := NamedVariant.from_global key
    let st' := { st with cursor := cursor, stack_analyzer := some sa' }
    st'.push_statement_to_current_function (.Assign addr left right)

/-- Disassembler::local_copy (disasm.rs, the pop-stack opcode): pop the
value, resolve the i8 index as the assignment target via get. -/
def Disassembler.local_copy (st : Disassembler) (scenario : Scenario) : Except Err Disassembler := do
  let addr := st.cursor
  let idx ← scenario.read_i8 (st.cursor + 1)
  let cursor := st.cursor + 1 + 1
  match st.stack_analyzer with
  | none => .error "stack analyzer not found"
  | some sa => do
    let (right, sa') ← sa.pop
    let left ← sa'.get idx
    let st' := { st with cursor := cursor, stack_analyzer := some sa' }
    st'.push_statement_to_current_function (.Assign addr left right)

/-- Disassembler::pop_global_table (disasm.rs): pop the value, pop the
key-selector, and build the assignment target.  The source wraps the target
in Statement::from_local_table_access (not from_global_table_access), and
this model mirrors that. -/
def Disassembler.pop_global_table (st : Disassembler) (scenario : Scenario) :
    Except Err Disassembler := do
  let addr := st.cursor
  let key ← scenario.read_u16 (st.cursor + 1)
  let cursor := st.cursor + 1 + 2
  match st.stack_analyzer with
  | none => .error "stack analyzer not found"
  | some sa => do
    let (right, sa') ← sa.pop
    let (table_key, sa'') ← sa'.pop
    let table := NamedVariant.from_global key
    let left := NamedVariant.from_expr (.LocalTableAccess addr table table_key)
    let st' := { st with cursor := cursor, stack_analyzer := some sa'' }
    st'.push_statement_to_current_function (.Assign addr left right)

/-- Disassembler::pop_local_table (disasm.rs): pop the value, pop the
key-selector, resolve the i8 index as the table, and assign through an
Expr-wrapped LocalTableAccess. -/
def Disassembler.pop_local_table (st : Disassembler) (scenario : Scenario) :
    Except Err Disassembler := do
  let addr := st.cursor
  let idx ← scenario.read_i8 (st.cursor + 1)
  let cursor := st.cursor + 1 + 1
  match st.stack_analyzer with
  | none => .error "stack analyzer not found"
  | some sa => do
    let (right, sa') ← sa.pop
    let (table_key, sa'') ← sa'.pop
    let table ← sa''.get idx
    let left := NamedVariant.from_expr (.LocalTableAccess addr table table_key)
    let st' := { st with cursor := cursor, stack_analyzer := some sa'' }
    st'.push_statement_to_current_function (.Assign addr left right)

/-- Disassembler::neg (disasm.rs): pop the operand, push the UnaryOp back
as an Expr. -/
def Disassembler.neg (st : Disassembler) : Except Err Disassembler := do
  let addr := st.cursor
  st.withAnalyzer 1 (fun sa => do
    let (v, sa') ← sa.pop
    sa'.push_expr (.UnaryOp addr "pvm_neg" v))

/-- Common body of the fourteen binary-operator handlers in disasm.rs (add,
sub, mul, div, modulo, bittest, and, or, sete, setne, setg, setle, setl,
setge): pop right then left, push the BinaryOp back as an Expr. -/
def Disassembler.binary_op (st : Disassembler) (op : String) : Except Err Disassembler := do
  let addr := st.cursor
  st.withAnalyzer 1 (fun sa => do
    let (right, sa') ← sa.pop
    let (left, sa'') ← sa'.pop
    sa''.push_expr (.BinaryOp addr op left right))

/-- Disassembler::routine_defination_pass (disasm.rs): pass-1 step; decode
only the instruction length, record routines at init-stack opcodes, and fail
on any unknown opcode byte. -/
def Disassembler.routine_defination_pass (st : Disassembler) (scenario : Scenario) :
    Except Err Disassembler := do
  let opcode ← scenario.read_u8 st.cursor
  match Opcode.tryFrom opcode with
  | some .Nop => st.one_byte_bypass
  | some .InitStack => st.init_stack_bypass scenario
  | some .Call => st.five_bytes_bypass
  | some .Syscall => st.three_bytes_bypass
  | some .Ret => st.one_byte_bypass
  | some .RetV => st.one_byte_bypass
  | some .Jmp => st.five_bytes_bypass
  | some .Jz => st.five_bytes_bypass
  | some .PushNil => st.one_byte_bypass
  | some .PushTrue => st.one_byte_bypass
  | some .PushI32 => st.five_bytes_bypass
  | some .PushI16 => st.three_bytes_bypass
  | some .PushI8 => st.two_bytes_bypass
  | some .PushF32 => st.five_bytes_bypass
  | some .PushString => st.push_string_bypass scenario
  | some .PushGlobal => st.three_bytes_bypass
  | some .PushStack => st.two_bytes_bypass
  | some .PushGlobalTable => st.three_bytes_bypass
  | some .PushLocalTable => st.two_bytes_bypass
  | some .PushTop => st.one_byte_bypass
  | some .PushReturn => st.one_byte_bypass
  | some .PopGlobal => st.three_bytes_bypass
  | some .PopStack => st.two_bytes_bypass
  | some .PopGlobalTable => st.three_bytes_bypass
  | some .PopLocalTable => st.two_bytes_bypass
  | some .Neg => st.one_byte_bypass
  | some .Add => st.one_byte_bypass
  | some .Sub => st.one_byte_bypass
  | some .Mul => st.one_byte_bypass
  | some .Div => st.one_byte_bypass
  | some .Mod => st.one_byte_bypass
  | some .BitTest => st.one_byte_bypass
  | some .And => st.one_byte_bypass
  | some .Or => st.one_byte_bypass
  | some .SetE => st.one_byte_bypass
  | some .SetNE => st.one_byte_bypass
  | some .SetG => st.one_byte_bypass
  | some .SetLE => st.one_byte_bypass
  | some .SetL => st.one_byte_bypass
  | some .SetGE => st.one_byte_bypass
  | none => .error "unexpected opcode"

/-- Disassembler::disassemble_pass (disasm.rs): pass-2 step; fully decode
and interpret each opcode.  An unknown opcode byte is non-fatal: it is
logged and skipped like a nop. -/
def Disassembler.disassemble_pass (st : Disassembler) (scenario : Scenario) :
    Except Err Disassembler := do
  let opcode ← scenario.read_u8 st.cursor
  match Opcode.tryFrom opcode with
  | some .Nop => st.nop
  | some .InitStack => st.init_stack
  | some .Call => st.call scenario
  | some .Syscall => st.syscall scenario
  | some .Ret => st.ret
  | some .RetV => st.retv
  | some .Jmp => st.jmp scenario
  | some .Jz => st.jz scenario
  | some .PushNil => st.push_nil
  | some .PushTrue => st.push_true
  | some .PushI32 => st.push_i32 scenario
  | some .PushI16 => st.push_i16 scenario
  | some .PushI8 => st.push_i8 scenario
  | some .PushF32 => st.push_f32 scenario
  | some .PushString => st.push_string scenario
  | some .PushGlobal => st.push_global scenario
  | some .PushStack => st.push_stack scenario
  | some .PushGlobalTable => st.push_global_table scenario
  | some .PushLocalTable => st.push_local_table scenario
  | some .PushTop => st.push_top
  | some .PushReturn => st.push_return_value
  | some .PopGlobal => st.pop_global scenario
  | some .PopStack => st.local_copy scenario
  | some .PopGlobalTable => st.pop_global_table scenario
  | some .PopLocalTable => st.pop_local_table scenario
  | some .Neg => st.neg
  | some .Add => st.binary_op "pvm_add"
  | some .Sub => st.binary_op "pvm_sub"
  | some .Mul => st.binary_op "pvm_mul"
  | some .Div => st.binary_op "pvm_div"
  | some .Mod => st.binary_op "pvm_mod"
  | some .BitTest => st.binary_op "pvm_bittest"
  | some .And => st.binary_op "pvm_and"
  | some .Or => st.binary_op "pvm_or"
  | some .SetE => st.binary_op "pvm_sete"
  | some .SetNE => st.binary_op "pvm_setne"
  | some .SetG => st.binary_op "pvm_setg"
  | some .SetLE => st.binary_op "pvm_setle"
  | some .SetL => st.binary_op "pvm_setl"
  | some .SetGE => st.binary_op "pvm_setge"
  | none => st.nop

/-- The pass-1 while loop of Disassembler::disassemble, fuel-bounded: loop
while the cursor is below the routine-stream end; running out of fuel with
the loop still live is an error, so a successful run is a completed run. -/
def pass1Run (scenario : Scenario) : Nat → Disassembler → Except Err Disassembler
  | 0, st =>
      if st.cursor < scenario.get_sys_desc_offset then .error "out of fuel" else .ok st
  | fuel + 1, st =>
      if st.cursor < scenario.get_sys_desc_offset then do
        let st' ← st.routine_defination_pass scenario
        pass1Run scenario fuel st'
      else .ok st

/-- The pass-2 while loop of Disassembler::disassemble, fuel-bounded. -/
def pass2Run (scenario : Scenario) : Nat → Disassembler → Except Err Disassembler
  | 0, st =>
      if st.cursor < scenario.get_sys_desc_offset then .error "out of fuel" else .ok st
  | fuel + 1, st =>
      if st.cursor < scenario.get_sys_desc_offset then do
        let st' ← st.disassemble_pass scenario
        pass2Run scenario fuel st'
      else .ok st

/-- Disassembler::disassemble (disasm.rs): pass 1, rewind, pass 2 (the
trailing debug print is I/O and not modelled). -/
def disassemble (scenario : Scenario) (fuel : Nat) (st : Disassembler) :
    Except Err Disassembler := do
  let st1 ← pass1Run scenario fuel st
  pass2Run scenario fuel st1.rewind


/-- Concrete scenario for exercising the pop-global-table handler: the
opcode byte 0x17 followed by the little-endian u16 key 7. -/
def c3Scenario : Scenario :=
  { bytes := [0x17, 7, 0]
    syscalls := fun _ => none
    sys_desc_offset := 3
    decode_str := fun _ _ => .error "unused" }

/-- Concrete disassembler state with an active routine at address 9 and two
operand-stack entries (Global 5 below Global 6). -/
def c3State : Disassembler :=
  { cursor := 0
    functions := [(9, { address := 9, args_count := 0, locals_count := 0, statements := [] })]
    stack_analyzer := some { local_count := 0, args_count := 0, cur_top := 2,
                             local_variables := [.Global 5, .Global 6] }
    current_function_address := some 9 }

/-- Scenario whose only routine-stream byte (at the post-header offset 4)
is 40 = 0x28, not a known opcode. -/
def c6Scenario : Scenario :=
  { bytes := [0, 0, 0, 0, 40]
    syscalls := fun _ => none
    sys_desc_offset := 5
    decode_str := fun _ _ => .error "unused" }

/-- Scenario and state for a concrete successful call: opcode 0x02 with
little-endian u32 target 9; the routine at address 9 declares one argument,
the active analyzer holds one operand (Global 3), and the active routine is
the one at address 9. -/
def c9Scenario : Scenario :=
  { bytes := [0x02, 9, 0, 0, 0]
    syscalls := fun _ => none
    sys_desc_offset := 5
    decode_str := fun _ _ => .error "unused" }

/-- Concrete disassembler state for the C9 witness. -/
def c9State : Disassembler :=
  { cursor := 0
    functions := [(9, { address := 9, args_count := 1, locals_count := 0, statements := [] })]
    stack_analyzer := some { local_count := 0, args_count := 0, cur_top := 1,
                             local_variables := [.Global 3] }
    current_function_address := some 9 }

/-- The end-to-end routine stream of the spec's scenario, after the 4-byte
header: InitStack(args=0, locals=0) at 4; PushI32(5) at 7; PushI32(3) at
12; Add at 17; PopGlobal(key=1) at 18; Ret at 21; stream end 22. -/
def c1Scenario : Scenario :=
  { bytes := [0, 0, 0, 0, 0x01, 0, 0, 0x0A, 5, 0, 0, 0, 0x0A, 3, 0, 0, 0, 0x1A, 0x15, 1, 0, 0x04]
    syscalls := fun _ => none
    sys_desc_offset := 22
    decode_str := fun _ _ => .error "unused" }

/-- The byte length of the instruction at offset c, derived from the opcode
byte (and, for push-string, the length byte): the per-opcode skip table
shared by both passes. -/
def instrLen (scenario : Scenario) (c : Nat) : Option Nat :=
  match scenario.read_u8 c with
  | .error _ => none
  | .ok b =>
    match Opcode.tryFrom b with
    | none => none
    | some op =>
      match op with
      | .InitStack => some 3
      | .Call => some 5
      | .Syscall => some 3
      | .Jmp => some 5
      | .Jz => some 5
      | .PushI32 => some 5
      | .PushI16 => some 3
      | .PushI8 => some 2
      | .PushF32 => some 5
      | .PushString =>
        match scenario.read_u8 (c + 1) with
        | .ok len => some (2 + len)
        | .error _ => none
      | .PushGlobal => some 3
      | .PushStack => some 2
      | .PushGlobalTable => some 3
      | .PushLocalTable => some 2
      | .PopGlobal => some 3
      | .PopStack => some 2
      | .PopGlobalTable => some 3
      | .PopLocalTable => some 2
      | _ => some 1

/-- Minimal complete stream for the C5 witness: a single Nop at offset 4. -/
def c5Scenario : Scenario :=
  { bytes := [0, 0, 0, 0, 0]
    syscalls := fun _ => none
    sys_desc_offset := 5
    decode_str := fun _ _ => .error "unused" }

/-!
Shallow embedding of the rfvp-rdecompiler core (src/rfvp-rdecompiler/src/ir.rs
and src/rfvp-rdecompiler/src/disasm.rs): the IR data model, the symbolic stack
analyzer, and the two-pass disassembler.  Machine integers are modelled as
Nat/Int with explicit wrap-around where the Rust code narrows or casts.
Fallible Rust functions (anyhow::Result) are modelled with Except Err.
-/

/-! Basic inversion lemmas for the Except monad and the analyzer ops. -/

theorem ok_bind {α β : Type} (a : α) (f : α → Except Err β) :
    (Except.ok a >>= f) = f a := rfl

theorem error_bind {α β : Type} (e : Err) (f : α → Except Err β) :
    ((Except.error e : Except Err α) >>= f) = Except.error e := rfl

/-- Closed form of StackAnalyzer.push: it fails exactly when the i8
narrowing of cur_top is negative, otherwise appends a slot-named entry and
bumps the wrapping u32 top. -/
theorem push_eq (a : StackAnalyzer) (v : Variant) :
    a.push v =
      if i8OfU32 a.cur_top < 0 then .error "invalid local index"
      else .ok { a with
            local_variables := a.local_variables ++
              [.StackIndexed ("local" ++ toString (i8OfU32 a.cur_top)) v]
            cur_top := (a.cur_top + 1) % 4294967296 } := by
  unfold StackAnalyzer.push NamedVariant.from_local
  split <;> rfl

theorem push_ok_inv {a : StackAnalyzer} {v : Variant} {a' : StackAnalyzer}
    (h : a.push v = .ok a') :
    a'.local_count = a.local_count ∧ a'.args_count = a.args_count ∧
    a'.cur_top = (a.cur_top + 1) % 4294967296 ∧
    a'.local_variables.length = a.local_variables.length + 1 := by
  rw [push_eq] at h
  split at h
  · simp at h
  · injection h with h
    subst h
    simp

theorem push_named_ok_inv {a : StackAnalyzer} {nv : NamedVariant} {a' : StackAnalyzer}
    (h : a.push_named nv = .ok a') :
    a'.local_count = a.local_count ∧ a'.args_count = a.args_count ∧
    a'.cur_top = (a.cur_top + 1) % 4294967296 ∧
    a'.local_variables.length = a.local_variables.length + 1 := by
  unfold StackAnalyzer.push_named at h
  injection h with h
  subst h
  simp

theorem pop_ok_inv {a : StackAnalyzer} {v : NamedVariant} {a' : StackAnalyzer}
    (h : a.pop = .ok (v, a')) :
    a.local_count < a.cur_top ∧
    a'.local_count = a.local_count ∧ a'.args_count = a.args_count ∧
    a'.cur_top = a.cur_top - 1 ∧
    a'.local_variables.length = a.local_variables.length := by
  unfold StackAnalyzer.pop at h
  dsimp only at h
  split at h
  · split at h
    · injection h with h
      rw [Prod.ext_iff] at h
      obtain ⟨h1, h2⟩ := h
      subst h2
      simp_all
    · simp at h
  · simp at h

theorem push_stack_ok_inv {a : StackAnalyzer} {idx : Int} {a' : StackAnalyzer}
    (h : a.push_stack idx = .ok a') :
    a'.local_count = a.local_count ∧ a'.args_count = a.args_count ∧
    a'.cur_top = (a.cur_top + 1) % 4294967296 ∧
    a'.local_variables.length = a.local_variables.length + 1 := by
  unfold StackAnalyzer.push_stack at h
  split at h
  · split at h
    · exact push_named_ok_inv h
    · simp at h
  · split at h
    · unfold NamedVariant.from_arg at h
      split at h
      · rw [error_bind] at h
        simp at h
      · rw [ok_bind] at h
        exact push_named_ok_inv h
    · simp at h

theorem push_top_ok_inv {a : StackAnalyzer} {a' : StackAnalyzer}
    (h : a.push_top = .ok a') :
    a'.local_count = a.local_count ∧ a'.args_count = a.args_count ∧
    a'.cur_top = (a.cur_top + 1) % 4294967296 ∧
    a'.local_variables.length = a.local_variables.length + 1 := by
  unfold StackAnalyzer.push_top at h
  split at h
  · split at h
    · exact push_named_ok_inv h
    · simp at h
  · simp at h

/-- Every operation preserves local_count and args_count, never shrinks the
backing Vec, and keeps cur_top within it (the wrapping push top is at most
the old top plus one, while the Vec always grows by one). -/
theorem applyOp_basic (a : StackAnalyzer) (op : StackOp)
    (h2 : a.cur_top ≤ a.local_variables.length) :
    (applyOp a op).local_count = a.local_count ∧
    (applyOp a op).args_count = a.args_count ∧
    a.local_variables.length ≤ (applyOp a op).local_variables.length ∧
    (applyOp a op).cur_top ≤ (applyOp a op).local_variables.length := by
  cases op with
  | push_nil =>
      simp only [applyOp, StackAnalyzer.push_nil]
      cases hp : a.push .Nil with
      | ok a' =>
          obtain ⟨e1, e2, e3, e4⟩ := push_ok_inv hp
          dsimp only
          exact ⟨e1, e2, by omega, by omega⟩
      | error e =>
          dsimp only
          exact ⟨rfl, rfl, le_refl _, h2⟩
  | push_true =>
      simp only [applyOp, StackAnalyzer.push_true]
      cases hp : a.push .True with
      | ok a' =>
          obtain ⟨e1, e2, e3, e4⟩ := push_ok_inv hp
          dsimp only
          exact ⟨e1, e2, by omega, by omega⟩
      | error e =>
          dsimp only
          exact ⟨rfl, rfl, le_refl _, h2⟩
  | push_int v =>
      simp only [applyOp, StackAnalyzer.push_int]
      cases hp : a.push (.Int v) with
      | ok a' =>
          obtain ⟨e1, e2, e3, e4⟩ := push_ok_inv hp
          dsimp only
          exact ⟨e1, e2, by omega, by omega⟩
      | error e =>
          dsimp only
          exact ⟨rfl, rfl, le_refl _, h2⟩
  | push_float b =>
      simp only [applyOp, StackAnalyzer.push_float]
      cases hp : a.push (.Float b) with
      | ok a' =>
          obtain ⟨e1, e2, e3, e4⟩ := push_ok_inv hp
          dsimp only
          exact ⟨e1, e2, by omega, by omega⟩
      | error e =>
          dsimp only
          exact ⟨rfl, rfl, le_refl _, h2⟩
  | push_string sv =>
      simp only [applyOp, StackAnalyzer.push_string]
      cases hp : a.push (.Str sv) with
      | ok a' =>
          obtain ⟨e1, e2, e3, e4⟩ := push_ok_inv hp
          dsimp only
          exact ⟨e1, e2, by omega, by omega⟩
      | error e =>
          dsimp only
          exact ⟨rfl, rfl, le_refl _, h2⟩
  | push_global k =>
      simp only [applyOp, StackAnalyzer.push_global]
      cases hp : a.push_named (NamedVariant.from_global k) with
      | ok a' =>
          obtain ⟨e1, e2, e3, e4⟩ := push_named_ok_inv hp
          dsimp only
          exact ⟨e1, e2, by omega, by omega⟩
      | error e =>
          dsimp only
          exact ⟨rfl, rfl, le_refl _, h2⟩
  | push_stack i =>
      simp only [applyOp]
      cases hp : a.push_stack i with
      | ok a' =>
          obtain ⟨e1, e2, e3, e4⟩ := push_stack_ok_inv hp
          dsimp only
          exact ⟨e1, e2, by omega, by omega⟩
      | error e =>
          dsimp only
          exact ⟨rfl, rfl, le_refl _, h2⟩
  | push_top =>
      simp only [applyOp]
      cases hp : a.push_top with
      | ok a' =>
          obtain ⟨e1, e2, e3, e4⟩ := push_top_ok_inv hp
          dsimp only
          exact ⟨e1, e2, by omega, by omega⟩
      | error e =>
          dsimp only
          exact ⟨rfl, rfl, le_refl _, h2⟩
  | push_return_value =>
      simp only [applyOp, StackAnalyzer.push_return_value]
      cases hp : a.push_named NamedVariant.from_return_value with
      | ok a' =>
          obtain ⟨e1, e2, e3, e4⟩ := push_named_ok_inv hp
          dsimp only
          exact ⟨e1, e2, by omega, by omega⟩
      | error e =>
          dsimp only
          exact ⟨rfl, rfl, le_refl _, h2⟩
  | push_expr sv =>
      simp only [applyOp, StackAnalyzer.push_expr]
      cases hp : a.push_named (NamedVariant.from_expr sv) with
      | ok a' =>
          obtain ⟨e1, e2, e3, e4⟩ := push_named_ok_inv hp
          dsimp only
          exact ⟨e1, e2, by omega, by omega⟩
      | error e =>
          dsimp only
          exact ⟨rfl, rfl, le_refl _, h2⟩
  | pop =>
      simp only [applyOp]
      cases hp : a.pop with
      | ok p =>
          obtain ⟨vv, a'⟩ := p
          obtain ⟨e0, e1, e2, e3, e4⟩ := pop_ok_inv hp
          dsimp only
          exact ⟨e1, e2, by omega, by omega⟩
      | error e =>
          dsimp only
          exact ⟨rfl, rfl, le_refl _, h2⟩
  | get i => exact ⟨rfl, rfl, le_refl _, h2⟩

/-- As long as the wrapping u32 top cannot overflow at this step, every
operation keeps cur_top at or above local_count and raises it by at most
one. -/
theorem applyOp_nowrap (a : StackAnalyzer) (op : StackOp)
    (h1 : a.local_count ≤ a.cur_top) (hw : a.cur_top + 1 < 4294967296) :
    a.local_count ≤ (applyOp a op).cur_top ∧ (applyOp a op).cur_top ≤ a.cur_top + 1 := by
  cases op with
  | push_nil =>
      simp only [applyOp, StackAnalyzer.push_nil]
      cases hp : a.push .Nil with
      | ok a' =>
          obtain ⟨e1, e2, e3, e4⟩ := push_ok_inv hp
          dsimp only
          omega
      | error e =>
          dsimp only
          omega
  | push_true =>
      simp only [applyOp, StackAnalyzer.push_true]
      cases hp : a.push .True with
      | ok a' =>
          obtain ⟨e1, e2, e3, e4⟩ := push_ok_inv hp
          dsimp only
          omega
      | error e =>
          dsimp only
          omega
  | push_int v =>
      simp only [applyOp, StackAnalyzer.push_int]
      cases hp : a.push (.Int v) with
      | ok a' =>
          obtain ⟨e1, e2, e3, e4⟩ := push_ok_inv hp
          dsimp only
          omega
      | error e =>
          dsimp only
          omega
  | push_float b =>
      simp only [applyOp, StackAnalyzer.push_float]
      cases hp : a.push (.Float b) with
      | ok a' =>
          obtain ⟨e1, e2, e3, e4⟩ := push_ok_inv hp
          dsimp only
          omega
      | error e =>
          dsimp only
          omega
  | push_string sv =>
      simp only [applyOp, StackAnalyzer.push_string]
      cases hp : a.push (.Str sv) with
      | ok a' =>
          obtain ⟨e1, e2, e3, e4⟩ := push_ok_inv hp
          dsimp only
          omega
      | error e =>
          dsimp only
          omega
  | push_global k =>
      simp only [applyOp, StackAnalyzer.push_global]
      cases hp : a.push_named (NamedVariant.from_global k) with
      | ok a' =>
          obtain ⟨e1, e2, e3, e4⟩ := push_named_ok_inv hp
          dsimp only
          omega
      | error e =>
          dsimp only
          omega
  | push_stack i =>
      simp only [applyOp]
      cases hp : a.push_stack i with
      | ok a' =>
          obtain ⟨e1, e2, e3, e4⟩ := push_stack_ok_inv hp
          dsimp only
          omega
      | error e =>
          dsimp only
          omega
  | push_top =>
      simp only [applyOp]
      cases hp : a.push_top with
      | ok a' =>
          obtain ⟨e1, e2, e3, e4⟩ := push_top_ok_inv hp
          dsimp only
          omega
      | error e =>
          dsimp only
          omega
  | push_return_value =>
      simp only [applyOp, StackAnalyzer.push_return_value]
      cases hp : a.push_named NamedVariant.from_return_value with
      | ok a' =>
          obtain ⟨e1, e2, e3, e4⟩ := push_named_ok_inv hp
          dsimp only
          omega
      | error e =>
          dsimp only
          omega
  | push_expr sv =>
      simp only [applyOp, StackAnalyzer.push_expr]
      cases hp : a.push_named (NamedVariant.from_expr sv) with
      | ok a' =>
          obtain ⟨e1, e2, e3, e4⟩ := push_named_ok_inv hp
          dsimp only
          omega
      | error e =>
          dsimp only
          omega
  | pop =>
      simp only [applyOp]
      cases hp : a.pop with
      | ok p =>
          obtain ⟨vv, a'⟩ := p
          obtain ⟨e0, e1, e2, e3, e4⟩ := pop_ok_inv hp
          dsimp only
          omega
      | error e =>
          dsimp only
          omega
  | get i =>
      dsimp only [applyOp]
      omega

/-- Folding any operation list preserves the counts, never shrinks the Vec,
and keeps cur_top within it. -/
theorem foldOps_basic (ops : List StackOp) : ∀ a : StackAnalyzer,
    a.cur_top ≤ a.local_variables.length →
    (ops.foldl applyOp a).local_count = a.local_count ∧
    (ops.foldl applyOp a).args_count = a.args_count ∧
    a.local_variables.length ≤ (ops.foldl applyOp a).local_variables.length ∧
    (ops.foldl applyOp a).cur_top ≤ (ops.foldl applyOp a).local_variables.length := by
  induction ops with
  | nil => intro a h2; exact ⟨rfl, rfl, le_refl _, h2⟩
  | cons op ops ih =>
      intro a h2
      obtain ⟨e1, e2, e3, e4⟩ := applyOp_basic a op h2
      obtain ⟨f1, f2, f3, f4⟩ := ih (applyOp a op) e4
      rw [List.foldl_cons]
      exact ⟨by omega, by omega, by omega, f4⟩

/-- Folding an operation list too short to overflow the wrapping u32 top
keeps cur_top at or above local_count. -/
theorem foldOps_nowrap (ops : List StackOp) : ∀ a : StackAnalyzer,
    a.local_count ≤ a.cur_top →
    a.cur_top ≤ a.local_variables.length →
    a.cur_top + ops.length < 4294967296 →
    (ops.foldl applyOp a).local_count = a.local_count ∧
    (ops.foldl applyOp a).args_count = a.args_count ∧
    (ops.foldl applyOp a).local_count ≤ (ops.foldl applyOp a).cur_top := by
  induction ops with
  | nil => intro a h1 _ _; exact ⟨rfl, rfl, h1⟩
  | cons op ops ih =>
      intro a h1 h2 hw
      rw [List.length_cons] at hw
      obtain ⟨e1, e2, e3, e4⟩ := applyOp_basic a op h2
      obtain ⟨n1, n2⟩ := applyOp_nowrap a op h1 (by omega)
      obtain ⟨f1, f2, f3⟩ := ih (applyOp a op) (by omega) e4 (by omega)
      rw [List.foldl_cons]
      exact ⟨by omega, by omega, by omega⟩

/-- Structural facts about StackAnalyzer.new. -/
theorem new_inv (locals args : Nat) :
    (StackAnalyzer.new locals args).local_count = locals ∧
    (StackAnalyzer.new locals args).args_count = args ∧
    (StackAnalyzer.new locals args).cur_top = locals ∧
    (StackAnalyzer.new locals args).local_variables.length = locals := by
  simp [StackAnalyzer.new]

/-- Invariants of any reachable analyzer state: the counts are those given
to new, the Vec holds at least the local slots, and cur_top stays within
the Vec. -/
theorem runOps_inv (locals args : Nat) (ops : List StackOp) :
    (runOps locals args ops).local_count = locals ∧
    (runOps locals args ops).args_count = args ∧
    locals ≤ (runOps locals args ops).local_variables.length ∧
    (runOps locals args ops).cur_top ≤ (runOps locals args ops).local_variables.length := by
  obtain ⟨n1, n2, n3, n4⟩ := new_inv locals args
  obtain ⟨f1, f2, f3, f4⟩ :=
    foldOps_basic ops (StackAnalyzer.new locals args) (by omega)
  unfold runOps
  exact ⟨by omega, by omega, by omega, f4⟩

/-! Arithmetic helpers for the i8 narrowing casts. -/

theorem i8OfU32_neg_iff (n : Nat) : i8OfU32 n < 0 ↔ 128 ≤ n % 256 := by
  unfold i8OfU32
  split <;> omega

theorem i8OfU32_le (n : Nat) : i8OfU32 n ≤ (n : Int) := by
  unfold i8OfU32
  split <;> omega

/-- Closed form of from_arg on the well-behaved i8 range -127..-2. -/
theorem from_arg_eq_of_range (i : Int) (v : Variant) (hlo : -127 ≤ i) (hhi : i ≤ -2) :
    NamedVariant.from_arg i v = .ok (.StackIndexed ("arg" ++ toString (i.natAbs - 2)) v) := by
  unfold NamedVariant.from_arg
  rw [if_neg (by omega)]
  dsimp only
  rw [if_neg (show ¬ i = -128 by omega)]
  have he : ((i.natAbs : Int).emod 4294967296) = (i.natAbs : Int) :=
    Int.emod_eq_of_lt (by omega) (by omega)
  rw [he, Int.toNat_natCast]
  have h2 : (i.natAbs + 4294967296 - 2) % 4294967296 = i.natAbs - 2 := by omega
  rw [h2]

/-- The wrapping u32 top after n uninterrupted push_global operations:
push_named has no failure path and no overflow guard, so the top just
counts up modulo 2^32. -/
theorem foldl_replicate_push_global_cur_top (k : Nat) (n : Nat) :
    ∀ a : StackAnalyzer, a.cur_top < 4294967296 →
      ((List.replicate n (StackOp.push_global k)).foldl applyOp a).cur_top =
        (a.cur_top + n) % 4294967296 := by
  induction n with
  | zero =>
      intro a ha
      rw [List.replicate_zero, List.foldl_nil]
      omega
  | succ n ih =>
      intro a ha
      rw [List.replicate_succ, List.foldl_cons]
      have hstep : (applyOp a (StackOp.push_global k)).cur_top = (a.cur_top + 1) % 4294967296 := by
        simp [applyOp, StackAnalyzer.push_global, StackAnalyzer.push_named]
      rw [ih (applyOp a (StackOp.push_global k)) (by omega)]
      rw [hstep]
      omega

/-- C4 (counterexample): the claim fails on the u32 semantics of cur_top.
From new(1, 0), the sequence of 2^32 - 1 push_global operations — each of
which succeeds unconditionally — wraps the unguarded `cur_top += 1` around
to 0, strictly below local_count = 1. -/
theorem c4_counterexample :
    (runOps 1 0 (List.replicate 4294967295 (StackOp.push_global 0))).local_count = 1 ∧
    (runOps 1 0 (List.replicate 4294967295 (StackOp.push_global 0))).cur_top = 0 := by
  constructor
  · exact (runOps_inv 1 0 (List.replicate 4294967295 (StackOp.push_global 0))).1
  · unfold runOps
    have hn := (new_inv 1 0).2.2.1
    rw [foldl_replicate_push_global_cur_top 0 4294967295 (StackAnalyzer.new 1 0) (by omega)]
    omega

/-- C4 (amended): for every StackAnalyzer created by new(local_count,
args_count) and every operation sequence short enough that the wrapping u32
cur_top cannot overflow (local_count plus the number of operations below
2^32 — every sequence arising from a real routine stream), cur_top ≥
local_count holds before and after each operation: pop fails with an error
rather than ever decrementing cur_top below local_count.  Only a run of
2^32 - local_count unguarded pushes can break the invariant, by wrapping
cur_top past zero, as the counterexample shows. -/
theorem c4_cur_top_no_overflow (locals args : Nat) (ops : List StackOp)
    (h : locals + ops.length < 4294967296) :
    (runOps locals args ops).local_count = locals ∧
    locals ≤ (runOps locals args ops).cur_top := by
  obtain ⟨n1, n2, n3, n4⟩ := new_inv locals args
  obtain ⟨f1, f2, f3⟩ :=
    foldOps_nowrap ops (StackAnalyzer.new locals args) (by omega) (by omega) (by omega)
  unfold runOps
  exact ⟨by omega, by omega⟩

/-- C4 (witness). -/
theorem c4_witness :
    1 + ([StackOp.push_global 0, StackOp.pop] : List StackOp).length < 4294967296 ∧
    ((runOps 1 0 [StackOp.push_global 0, StackOp.pop]).local_count = 1 ∧
      1 ≤ (runOps 1 0 [StackOp.push_global 0, StackOp.pop]).cur_top) :=
  ⟨by decide, c4_cur_top_no_overflow 1 0 [StackOp.push_global 0, StackOp.pop] (by decide)⟩

set_option maxRecDepth 100000 in
/-- C10 (counterexample): the claim quantifies over every state with
cur_top ≥ 128, but the state reached by 256 push_global operations has
cur_top = 256 ≥ 128 and push_nil still succeeds there, because the i8
narrowing of 256 is 0, not negative. -/
theorem c10_counterexample :
    (runOps 0 0 (List.replicate 256 (StackOp.push_global 0))).cur_top = 256 ∧
    exceptIsOk ((runOps 0 0 (List.replicate 256 (StackOp.push_global 0))).push_nil) = true := by
  constructor <;> rfl

/-- C10 (amended): a constant-producing push (push_nil, push_true,
push_int, push_float, push_string) fails exactly when the low byte of
cur_top read as a signed i8 is negative, i.e. when cur_top % 256 ≥ 128; in
particular all depths 128..255 fail, but depths whose low byte wraps back
below 128 (such as 256) succeed again with an aliased slot name. -/
theorem c10_push_fails_iff_low_byte_wraps (a : StackAnalyzer) (v : Int) (b : Nat) (s : String) :
    (exceptIsOk a.push_nil = false ↔ 128 ≤ a.cur_top % 256) ∧
    (exceptIsOk a.push_true = false ↔ 128 ≤ a.cur_top % 256) ∧
    (exceptIsOk (a.push_int v) = false ↔ 128 ≤ a.cur_top % 256) ∧
    (exceptIsOk (a.push_float b) = false ↔ 128 ≤ a.cur_top % 256) ∧
    (exceptIsOk (a.push_string s) = false ↔ 128 ≤ a.cur_top % 256) := by
  have key : ∀ vr : Variant, exceptIsOk (a.push vr) = false ↔ 128 ≤ a.cur_top % 256 := by
    intro vr
    rw [push_eq]
    by_cases hneg : i8OfU32 a.cur_top < 0
    · rw [if_pos hneg]
      have hc := (i8OfU32_neg_iff a.cur_top).mp hneg
      simp [exceptIsOk, hc]
    · rw [if_neg hneg]
      have h2 : ¬ 128 ≤ a.cur_top % 256 := fun hc => hneg ((i8OfU32_neg_iff _).mpr hc)
      simp [exceptIsOk, h2]
  exact ⟨key _, key _, key _, key _, key _⟩

/-- C2 (code bug): a push immediately followed by pop does not return the
pushed entry on every reachable state.  After one earlier push/pop round,
push appends its entry at the end of the Vec while pop reads the slot
indexed by the decremented cur_top, which is the slot that the earlier pop
reset to a nil placeholder: pushing StackIndexed("local0", Int 7) and
popping returns StackIndexed("local0", Nil) instead. -/
theorem c2_push_pop_roundtrip_failure :
    (do
      let a1 ← (StackAnalyzer.new 0 0).push_int 5
      let (_, a2) ← a1.pop
      let a3 ← a2.push_int 7
      let (v, _) ← a3.pop
      (.ok v : Except Err NamedVariant)) = .ok (.StackIndexed "local0" .Nil) ∧
    (NamedVariant.StackIndexed "local0" .Nil) ≠ (.StackIndexed "local0" (.Int 7)) :=
  ⟨rfl, by simp⟩

/-- C3 (code bug): interpreting the pop-global-table opcode pops the value
(Global 6), pops the key-selector (Global 5), and appends an Assign whose
target is an Expr-wrapped table access with table = Global key and slot =
the key-selector — but the emitted access is a LocalTableAccess, not the
GlobalTableAccess the claim (and the spec) state, because the handler calls
Statement::from_local_table_access. -/
theorem c3_pop_global_table_emits_local_table_access :
    (Except.map (fun st => (lookupFn st.functions 9).map (fun f => f.statements))
        (c3State.pop_global_table c3Scenario)) =
      .ok (some [.Assign 0 (.Expr (.LocalTableAccess 0 (.Global 7) (.Global 5))) (.Global 6)]) ∧
    (Statement.Assign 0 (.Expr (.LocalTableAccess 0 (.Global 7) (.Global 5))) (.Global 6)) ≠
      (.Assign 0 (.Expr (.GlobalTableAccess 0 (.Global 7) (.Global 5))) (.Global 6)) :=
  ⟨rfl, by simp⟩

set_option maxRecDepth 10000 in
/-- C8 (counterexample): at the i8 input -128 the claim fails: the decimal
for |−128|−2 is 126, but the code's wrapping abs and u32 cast name the
slot arg4294967166. -/
theorem c8_counterexample :
    NamedVariant.from_arg (-128) .Nil = .ok (.StackIndexed "arg4294967166" .Nil) ∧
    "arg4294967166" ≠ "arg126" :=
  ⟨rfl, by decide⟩

set_option maxRecDepth 10000 in
/-- C8 (amended): for every i8 index i, from_arg fails for i ≥ -1, produces
StackIndexed "arg" followed by |i|-2 in decimal for -127 ≤ i ≤ -2, and at
the single remaining input i = -128 the i8 abs wraps, producing the slot
name arg4294967166 instead of arg126. -/
theorem c8_from_arg_amended (i : Int) (v : Variant) (hlo : -128 ≤ i) (hhi : i ≤ 127) :
    (i ≥ -1 → NamedVariant.from_arg i v = .error "invalid argument index") ∧
    (-127 ≤ i → i ≤ -2 →
      NamedVariant.from_arg i v = .ok (.StackIndexed ("arg" ++ toString (i.natAbs - 2)) v)) ∧
    (i = -128 → NamedVariant.from_arg i v = .ok (.StackIndexed "arg4294967166" v)) := by
  refine ⟨?_, ?_, ?_⟩
  · intro h
    unfold NamedVariant.from_arg
    rw [if_pos h]
  · intro h1 h2
    exact from_arg_eq_of_range i v h1 h2
  · intro h
    subst h
    rfl

/-- C8 (witness). -/
theorem c8_witness :
    (-128 ≤ (-2 : Int) ∧ (-2 : Int) ≤ 127) ∧
    (((-2 : Int) ≥ -1 → NamedVariant.from_arg (-2) .Nil = .error "invalid argument index") ∧
     (-127 ≤ (-2 : Int) → (-2 : Int) ≤ -2 →
        NamedVariant.from_arg (-2) .Nil =
          .ok (.StackIndexed ("arg" ++ toString ((-2 : Int).natAbs - 2)) .Nil)) ∧
     ((-2 : Int) = -128 → NamedVariant.from_arg (-2) .Nil = .ok (.StackIndexed "arg4294967166" .Nil))) :=
  ⟨⟨by decide, by decide⟩, c8_from_arg_amended (-2) .Nil (by decide) (by decide)⟩

/-- C7 (counterexample): after pushing one operand onto an analyzer with
zero locals, push_stack(0) fails (0 is not below local_count) but get(0)
succeeds, returning the raw operand slot — so get does not mirror
push_stack for idx ≥ locals_count. -/
theorem c7_counterexample :
    (Except.map (fun a => (exceptIsOk (a.push_stack 0), exceptIsOk (a.get 0)))
        ((StackAnalyzer.new 0 0).push_global 5)) = .ok (false, true) :=
  rfl

/-- C7 (amended): on every reachable analyzer state, get mirrors push_stack
for idx = -1 (both fail) and idx ≤ -2 (both build the same argument
reference, push_stack pushing it); for 0 ≤ idx below the i8 narrowing of
locals_count both read the same local slot, get without mutating.  For
idx ≥ locals_count (not covered below) push_stack fails while get reads the
raw slot, as the counterexample shows. -/
theorem c7_get_mirrors_push_stack (locals args : Nat) (ops : List StackOp) (idx : Int)
    (a : StackAnalyzer) (ha : a = runOps locals args ops) :
    (idx = -1 → exceptIsOk (a.get idx) = false ∧ exceptIsOk (a.push_stack idx) = false) ∧
    (idx ≤ -2 → ∃ v, NamedVariant.from_arg idx .Nil = .ok v ∧
        a.get idx = .ok v ∧ a.push_stack idx = a.push_named v) ∧
    (0 ≤ idx → idx < i8OfU32 a.local_count → ∃ v,
        a.local_variables.get? idx.toNat = some v ∧
        a.get idx = .ok v ∧ a.push_stack idx = a.push_named v) := by
  subst ha
  refine ⟨?_, ?_, ?_⟩
  · intro h
    subst h
    constructor
    · unfold StackAnalyzer.get
      rw [if_neg (by omega), if_neg (by omega)]
      rfl
    · unfold StackAnalyzer.push_stack
      rw [if_neg (fun hc => absurd hc.1 (by omega)), if_neg (by omega)]
      rfl
  · intro hle
    have hok : ∃ v, NamedVariant.from_arg idx .Nil = .ok v := by
      unfold NamedVariant.from_arg
      rw [if_neg (by omega)]
      exact ⟨_, rfl⟩
    obtain ⟨v, hv⟩ := hok
    refine ⟨v, hv, ?_, ?_⟩
    · unfold StackAnalyzer.get
      rw [if_neg (by omega), if_pos (by omega)]
      exact hv
    · unfold StackAnalyzer.push_stack
      rw [if_neg (fun hc => absurd hc.1 (by omega)), if_pos (by omega)]
      rw [hv, ok_bind]
  · intro h0 hlt
    obtain ⟨e1, e2, e3, e4⟩ := runOps_inv locals args ops
    have hle2 := i8OfU32_le (runOps locals args ops).local_count
    have hlen : idx.toNat < (runOps locals args ops).local_variables.length := by omega
    have hg : (runOps locals args ops).local_variables.get? idx.toNat =
        some ((runOps locals args ops).local_variables.get ⟨idx.toNat, hlen⟩) :=
      List.get?_eq_get hlen
    refine ⟨_, hg, ?_, ?_⟩
    · unfold StackAnalyzer.get
      rw [if_pos h0, hg]
    · unfold StackAnalyzer.push_stack
      rw [if_pos ⟨h0, hlt⟩, hg]

/-- C7 (witness). -/
theorem c7_witness :
    (0 : Int) ≤ 0 ∧ (0 : Int) < i8OfU32 (runOps 1 0 []).local_count ∧
    (∃ v, (runOps 1 0 []).local_variables.get? (0 : Int).toNat = some v ∧
      (runOps 1 0 []).get 0 = .ok v ∧
      (runOps 1 0 []).push_stack 0 = (runOps 1 0 []).push_named v) :=
  ⟨by decide, by decide,
    (c7_get_mirrors_push_stack 1 0 [] 0 (runOps 1 0 []) rfl).2.2 (by decide) (by decide)⟩

/-! Lemmas about the disassembler handlers. -/

theorem lookupFn_insertFn (fs : List (Nat × Function)) (k : Nat) (f : Function) :
    lookupFn (insertFn fs k f) k = some f := by
  simp [lookupFn, insertFn]

/-- A successful popN returns exactly as many entries as requested. -/
theorem popN_ok_length (n : Nat) : ∀ (sa : StackAnalyzer) {args : List NamedVariant}
    {sa' : StackAnalyzer}, popN sa n = .ok (args, sa') → args.length = n := by
  induction n with
  | zero =>
      intro sa args sa' h
      unfold popN at h
      injection h with h
      simp only [Prod.mk.injEq] at h
      obtain ⟨h1, _⟩ := h
      subst h1
      rfl
  | succ n ih =>
      intro sa args sa' h
      unfold popN at h
      cases hp : sa.pop with
      | error e =>
          rw [hp, error_bind] at h
          exact absurd h (by simp)
      | ok p =>
          obtain ⟨v, sa1⟩ := p
          rw [hp, ok_bind] at h
          dsimp only at h
          cases hq : popN sa1 n with
          | error e =>
              rw [hq, error_bind] at h
              exact absurd h (by simp)
          | ok q =>
              obtain ⟨vs, sa2⟩ := q
              rw [hq, ok_bind] at h
              dsimp only at h
              injection h with h
              simp only [Prod.mk.injEq] at h
              obtain ⟨h1, _⟩ := h
              subst h1
              simp [ih sa1 hq]

/-- C6: an opcode byte outside the known set makes the discovery pass fail
with an error, while the interpretation pass succeeds, advancing the cursor
by exactly one byte and leaving the rest of the state untouched. -/
theorem c6_unknown_opcode_divergent_policy (st : Disassembler) (scenario : Scenario) (b : Nat)
    (hb : scenario.read_u8 st.cursor = .ok b) (hunk : Opcode.tryFrom b = none) :
    exceptIsOk (st.routine_defination_pass scenario) = false ∧
    st.disassemble_pass scenario = .ok { st with cursor := st.cursor + 1 } := by
  constructor
  · unfold Disassembler.routine_defination_pass
    rw [hb, ok_bind, hunk]
    rfl
  · unfold Disassembler.disassemble_pass
    rw [hb, ok_bind, hunk]
    rfl

/-- C6 (witness). -/
theorem c6_witness :
    c6Scenario.read_u8 Disassembler.initState.cursor = .ok 40 ∧
    Opcode.tryFrom 40 = none ∧
    (exceptIsOk (Disassembler.initState.routine_defination_pass c6Scenario) = false ∧
     Disassembler.initState.disassemble_pass c6Scenario =
       .ok { Disassembler.initState with cursor := Disassembler.initState.cursor + 1 }) :=
  ⟨rfl, rfl, c6_unknown_opcode_divergent_policy Disassembler.initState c6Scenario 40 rfl rfl⟩

/-- C9: whenever the call handler succeeds, the callee routine recorded at
the u32 target address exists in the routine table, exactly its declared
args_count entries were popped, and the statement appended to the active
routine is a Call whose args list has length equal to that args_count;
when the target has no recorded routine or the pops underflow, the handler
returns an error instead (no other exit produces an ok). -/
theorem c9_call_args_length (st : Disassembler) (scenario : Scenario) (st' : Disassembler)
    (h : st.call scenario = .ok st') :
    ∃ target func args sa sa' curAddr oldFunc,
      scenario.read_u32 (st.cursor + 1) = .ok target ∧
      lookupFn st.functions target = some func ∧
      st.stack_analyzer = some sa ∧
      popN sa func.args_count = .ok (args, sa') ∧
      args.length = func.args_count ∧
      st.current_function_address = some curAddr ∧
      lookupFn st.functions curAddr = some oldFunc ∧
      lookupFn st'.functions curAddr =
        some { oldFunc with statements := oldFunc.statements ++ [.Call st.cursor target args] } := by
  unfold Disassembler.call at h
  cases hr : scenario.read_u32 (st.cursor + 1) with
  | error e =>
      rw [hr, error_bind] at h
      exact absurd h (by simp)
  | ok target =>
      rw [hr, ok_bind] at h
      dsimp only at h
      cases hf : lookupFn st.functions target with
      | none =>
          rw [hf] at h
          exact absurd h (by simp)
      | some func =>
          rw [hf] at h
          cases hsa : st.stack_analyzer with
          | none =>
              rw [hsa] at h
              exact absurd h (by simp)
          | some sa =>
              rw [hsa] at h
              dsimp only at h
              cases hpn : popN sa func.args_count with
              | error e =>
                  rw [hpn, error_bind] at h
                  exact absurd h (by simp)
              | ok pr =>
                  obtain ⟨args, sa2⟩ := pr
                  rw [hpn, ok_bind] at h
                  dsimp only at h
                  unfold Disassembler.push_statement_to_current_function at h
                  dsimp only at h
                  cases hcf : st.current_function_address with
                  | none =>
                      rw [hcf] at h
                      exact absurd h (by simp)
                  | some curAddr =>
                      rw [hcf] at h
                      dsimp only at h
                      cases hlf : lookupFn st.functions curAddr with
                      | none =>
                          rw [hlf] at h
                          exact absurd h (by simp)
                      | some oldFunc =>
                          rw [hlf] at h
                          dsimp only at h
                          injection h with h
                          refine ⟨target, func, args, sa, sa2, curAddr, oldFunc,
                            rfl, hf, rfl, hpn, popN_ok_length func.args_count sa hpn,
                            rfl, hlf, ?_⟩
                          rw [← h]
                          exact lookupFn_insertFn _ _ _

/-- C9 (witness). -/
theorem c9_witness :
    ∃ st', c9State.call c9Scenario = .ok st' ∧
      ∃ target func args sa sa' curAddr oldFunc,
        c9Scenario.read_u32 (c9State.cursor + 1) = .ok target ∧
        lookupFn c9State.functions target = some func ∧
        c9State.stack_analyzer = some sa ∧
        popN sa func.args_count = .ok (args, sa') ∧
        args.length = func.args_count ∧
        c9State.current_function_address = some curAddr ∧
        lookupFn c9State.functions curAddr = some oldFunc ∧
        lookupFn st'.functions curAddr =
          some { oldFunc with statements := oldFunc.statements ++ [.Call c9State.cursor target args] } :=
  ⟨_, rfl, c9_call_args_length c9State c9Scenario _ rfl⟩

set_option maxRecDepth 100000 in
/-- C1 (code bug): disassembling the spec's end-to-end stream produces
exactly one routine (keyed by address 4), but its statement list is
Assign{Global 1, StackIndexed("local0", Nil)}; Return{false} — not the
claimed Assign{Global 1, BinaryOp(pvm_add, 5, 3)}; Return{false}.  The Add
handler's push_expr appends the BinaryOp at the end of the analyzer's Vec
while the earlier pops left cur_top pointing at the slot they reset to a
nil placeholder, so PopGlobal pops that placeholder instead of the
expression. -/
theorem c1_end_to_end_stream :
    (Except.map (fun st => (lookupFn st.functions 4).map (fun f => f.statements))
        (disassemble c1Scenario 10 Disassembler.initState)) =
      .ok (some [.Assign 18 (.Global 1) (.StackIndexed "local0" .Nil), .Return 21 false]) ∧
    (Except.map (fun st => st.functions.map (fun p => p.1))
        (disassemble c1Scenario 10 Disassembler.initState)) = .ok [4] ∧
    ([Statement.Assign 18 (.Global 1) (.StackIndexed "local0" .Nil), .Return 21 false] ≠
      [Statement.Assign 18 (.Global 1)
          (.Expr (.BinaryOp 17 "pvm_add" (.StackIndexed "local0" (.Int 5))
            (.StackIndexed "local1" (.Int 3)))),
       .Return 21 false]) :=
  ⟨rfl, rfl, by simp⟩

/-! Cursor-advancement lemmas for the two bypass helpers and every pass-2
handler: a successful step advances the cursor by the instruction length. -/

theorem withAnalyzer_ok_cursor {st : Disassembler} {k : Nat}
    {f : StackAnalyzer → Except Err StackAnalyzer} {st' : Disassembler}
    (h : st.withAnalyzer k f = .ok st') : st'.cursor = st.cursor + k := by
  unfold Disassembler.withAnalyzer at h
  split at h
  · exact absurd h (by simp)
  · split at h
    · injection h with h
      rw [← h]
    · exact absurd h (by simp)

theorem read_then_withAnalyzer_cursor {α : Type} {st : Disassembler} {r : Except Err α} {k : Nat}
    {f : α → StackAnalyzer → Except Err StackAnalyzer} {st' : Disassembler}
    (h : (r >>= fun x => st.withAnalyzer k (f x)) = .ok st') : st'.cursor = st.cursor + k := by
  cases hr : r with
  | error e =>
      rw [hr, error_bind] at h
      exact absurd h (by simp)
  | ok x =>
      rw [hr, ok_bind] at h
      exact withAnalyzer_ok_cursor h

theorem push_stmt_ok_state {st : Disassembler} {stmt : Statement} {st' : Disassembler}
    (h : st.push_statement_to_current_function stmt = .ok st') :
    st'.cursor = st.cursor ∧ st'.stack_analyzer = st.stack_analyzer := by
  unfold Disassembler.push_statement_to_current_function at h
  split at h
  · split at h
    · injection h with h
      rw [← h]
      exact ⟨rfl, rfl⟩
    · exact absurd h (by simp)
  · exact absurd h (by simp)

theorem nop_ok_cursor {st st' : Disassembler} (h : st.nop = .ok st') :
    st'.cursor = st.cursor + 1 := by
  unfold Disassembler.nop at h
  injection h with h
  rw [← h]

theorem init_stack_ok_cursor {st st' : Disassembler} (h : st.init_stack = .ok st') :
    st'.cursor = st.cursor + 3 := by
  unfold Disassembler.init_stack at h
  dsimp only at h
  split at h
  · injection h with h
    rw [← h]
  · exact absurd h (by simp)

theorem init_stack_bypass_ok_cursor {st : Disassembler} {scen : Scenario} {st' : Disassembler}
    (h : st.init_stack_bypass scen = .ok st') : st'.cursor = st.cursor + 3 := by
  unfold Disassembler.init_stack_bypass at h
  cases h1 : scen.read_i8 (st.cursor + 1) with
  | error e =>
      rw [h1, error_bind] at h
      exact absurd h (by simp)
  | ok ac =>
      rw [h1, ok_bind] at h
      try dsimp only at h
      cases h2 : scen.read_i8 (st.cursor + 2) with
      | error e =>
          rw [h2, error_bind] at h
          exact absurd h (by simp)
      | ok lc =>
          rw [h2, ok_bind] at h
          injection h with h
          rw [← h]

theorem push_string_bypass_ok {st : Disassembler} {scen : Scenario} {st' : Disassembler}
    (h : st.push_string_bypass scen = .ok st') :
    ∃ len, scen.read_u8 (st.cursor + 1) = .ok len ∧ st'.cursor = st.cursor + 1 + 1 + len := by
  unfold Disassembler.push_string_bypass at h
  cases hr : scen.read_u8 (st.cursor + 1) with
  | error e =>
      rw [hr, error_bind] at h
      exact absurd h (by simp)
  | ok len =>
      rw [hr, ok_bind] at h
      injection h with h
      exact ⟨len, rfl, by rw [← h]⟩

theorem call_ok_cursor {st : Disassembler} {scen : Scenario} {st' : Disassembler}
    (h : st.call scen = .ok st') : st'.cursor = st.cursor + 5 := by
  unfold Disassembler.call at h
  cases hr : scen.read_u32 (st.cursor + 1) with
  | error e =>
      rw [hr, error_bind] at h
      exact absurd h (by simp)
  | ok target =>
      rw [hr, ok_bind] at h
      try dsimp only at h
      cases hf : lookupFn st.functions target with
      | none =>
          rw [hf] at h
          exact absurd h (by simp)
      | some func =>
          rw [hf] at h
          try dsimp only at h
          cases hsa : st.stack_analyzer with
          | none =>
              rw [hsa] at h
              exact absurd h (by simp)
          | some sa =>
              rw [hsa] at h
              try dsimp only at h
              cases hpn : popN sa func.args_count with
              | error e =>
                  rw [hpn, error_bind] at h
                  exact absurd h (by simp)
              | ok pr =>
                  obtain ⟨args, sa2⟩ := pr
                  rw [hpn, ok_bind] at h
                  try dsimp only at h
                  exact (push_stmt_ok_state h).1

theorem syscall_ok_cursor {st : Disassembler} {scen : Scenario} {st' : Disassembler}
    (h : st.syscall scen = .ok st') : st'.cursor = st.cursor + 3 := by
  unfold Disassembler.syscall at h
  cases hr : scen.read_u16 (st.cursor + 1) with
  | error e =>
      rw [hr, error_bind] at h
      exact absurd h (by simp)
  | ok id =>
      rw [hr, ok_bind] at h
      try dsimp only at h
      cases hsc : scen.get_syscall id with
      | none =>
          rw [hsc] at h
          exact absurd h (by simp)
      | some sc =>
          rw [hsc] at h
          try dsimp only at h
          cases hsa : st.stack_analyzer with
          | none =>
              rw [hsa] at h
              exact absurd h (by simp)
          | some sa =>
              rw [hsa] at h
              try dsimp only at h
              cases hpn : popN sa sc.args with
              | error e =>
                  rw [hpn, error_bind] at h
                  exact absurd h (by simp)
              | ok pr =>
                  obtain ⟨args, sa2⟩ := pr
                  rw [hpn, ok_bind] at h
                  try dsimp only at h
                  exact (push_stmt_ok_state h).1

theorem ret_ok_cursor {st st' : Disassembler} (h : st.ret = .ok st') :
    st'.cursor = st.cursor + 1 := by
  unfold Disassembler.ret at h
  try dsimp only at h
  exact (push_stmt_ok_state h).1

theorem retv_ok_cursor {st st' : Disassembler} (h : st.retv = .ok st') :
    st'.cursor = st.cursor + 1 := by
  unfold Disassembler.retv at h
  try dsimp only at h
  exact (push_stmt_ok_state h).1

theorem jmp_ok_cursor {st : Disassembler} {scen : Scenario} {st' : Disassembler}
    (h : st.jmp scen = .ok st') : st'.cursor = st.cursor + 5 := by
  unfold Disassembler.jmp at h
  cases hr : scen.read_u32 (st.cursor + 1) with
  | error e =>
      rw [hr, error_bind] at h
      exact absurd h (by simp)
  | ok target =>
      rw [hr, ok_bind] at h
      try dsimp only at h
      exact (push_stmt_ok_state h).1

theorem jz_ok_cursor {st : Disassembler} {scen : Scenario} {st' : Disassembler}
    (h : st.jz scen = .ok st') : st'.cursor = st.cursor + 5 := by
  unfold Disassembler.jz at h
  cases hr : scen.read_u32 (st.cursor + 1) with
  | error e =>
      rw [hr, error_bind] at h
      exact absurd h (by simp)
  | ok target =>
      rw [hr, ok_bind] at h
      try dsimp only at h
      cases hsa : st.stack_analyzer with
      | none =>
          rw [hsa] at h
          exact absurd h (by simp)
      | some sa =>
          rw [hsa] at h
          try dsimp only at h
          cases hp : sa.pop with
          | error e =>
              rw [hp, error_bind] at h
              exact absurd h (by simp)
          | ok pr =>
              obtain ⟨cond, sa2⟩ := pr
              rw [hp, ok_bind] at h
              try dsimp only at h
              exact (push_stmt_ok_state h).1

theorem pop_global_ok_cursor {st : Disassembler} {scen : Scenario} {st' : Disassembler}
    (h : st.pop_global scen = .ok st') : st'.cursor = st.cursor + 3 := by
  unfold Disassembler.pop_global at h
  cases hr : scen.read_u16 (st.cursor + 1) with
  | error e =>
      rw [hr, error_bind] at h
      exact absurd h (by simp)
  | ok key =>
      rw [hr, ok_bind] at h
      try dsimp only at h
      cases hsa : st.stack_analyzer with
      | none =>
          rw [hsa] at h
          exact absurd h (by simp)
      | some sa =>
          rw [hsa] at h
          try dsimp only at h
          cases hp : sa.pop with
          | error e =>
              rw [hp, error_bind] at h
              exact absurd h (by simp)
          | ok pr =>
              obtain ⟨right, sa2⟩ := pr
              rw [hp, ok_bind] at h
              try dsimp only at h
              exact (push_stmt_ok_state h).1

theorem local_copy_ok_cursor {st : Disassembler} {scen : Scenario} {st' : Disassembler}
    (h : st.local_copy scen = .ok st') : st'.cursor = st.cursor + 2 := by
  unfold Disassembler.local_copy at h
  cases hr : scen.read_i8 (st.cursor + 1) with
  | error e =>
      rw [hr, error_bind] at h
      exact absurd h (by simp)
  | ok idx =>
      rw [hr, ok_bind] at h
      try dsimp only at h
      cases hsa : st.stack_analyzer with
      | none =>
          rw [hsa] at h
          exact absurd h (by simp)
      | some sa =>
          rw [hsa] at h
          try dsimp only at h
          cases hp : sa.pop with
          | error e =>
              rw [hp, error_bind] at h
              exact absurd h (by simp)
          | ok pr =>
              obtain ⟨right, sa2⟩ := pr
              rw [hp, ok_bind] at h
              try dsimp only at h
              cases hg : sa2.get idx with
              | error e =>
                  rw [hg, error_bind] at h
                  exact absurd h (by simp)
              | ok left =>
                  rw [hg, ok_bind] at h
                  try dsimp only at h
                  exact (push_stmt_ok_state h).1

theorem pop_global_table_ok_cursor {st : Disassembler} {scen : Scenario} {st' : Disassembler}
    (h : st.pop_global_table scen = .ok st') : st'.cursor = st.cursor + 3 := by
  unfold Disassembler.pop_global_table at h
  cases hr : scen.read_u16 (st.cursor + 1) with
  | error e =>
      rw [hr, error_bind] at h
      exact absurd h (by simp)
  | ok key =>
      rw [hr, ok_bind] at h
      try dsimp only at h
      cases hsa : st.stack_analyzer with
      | none =>
          rw [hsa] at h
          exact absurd h (by simp)
      | some sa =>
          rw [hsa] at h
          try dsimp only at h
          cases hp : sa.pop with
          | error e =>
              rw [hp, error_bind] at h
              exact absurd h (by simp)
          | ok pr =>
              obtain ⟨right, sa2⟩ := pr
              rw [hp, ok_bind] at h
              try dsimp only at h
              cases hq : sa2.pop with
              | error e =>
                  rw [hq, error_bind] at h
                  exact absurd h (by simp)
              | ok qr =>
                  obtain ⟨tk, sa3⟩ := qr
                  rw [hq, ok_bind] at h
                  try dsimp only at h
                  exact (push_stmt_ok_state h).1

theorem pop_local_table_ok_cursor {st : Disassembler} {scen : Scenario} {st' : Disassembler}
    (h : st.pop_local_table scen = .ok st') : st'.cursor = st.cursor + 2 := by
  unfold Disassembler.pop_local_table at h
  cases hr : scen.read_i8 (st.cursor + 1) with
  | error e =>
      rw [hr, error_bind] at h
      exact absurd h (by simp)
  | ok idx =>
      rw [hr, ok_bind] at h
      try dsimp only at h
      cases hsa : st.stack_analyzer with
      | none =>
          rw [hsa] at h
          exact absurd h (by simp)
      | some sa =>
          rw [hsa] at h
          try dsimp only at h
          cases hp : sa.pop with
          | error e =>
              rw [hp, error_bind] at h
              exact absurd h (by simp)
          | ok pr =>
              obtain ⟨right, sa2⟩ := pr
              rw [hp, ok_bind] at h
              try dsimp only at h
              cases hq : sa2.pop with
              | error e =>
                  rw [hq, error_bind] at h
                  exact absurd h (by simp)
              | ok qr =>
                  obtain ⟨tk, sa3⟩ := qr
                  rw [hq, ok_bind] at h
                  try dsimp only at h
                  cases hg : sa3.get idx with
                  | error e =>
                      rw [hg, error_bind] at h
                      exact absurd h (by simp)
                  | ok table =>
                      rw [hg, ok_bind] at h
                      try dsimp only at h
                      exact (push_stmt_ok_state h).1

theorem push_string_ok {st : Disassembler} {scen : Scenario} {st' : Disassembler}
    (h : st.push_string scen = .ok st') :
    ∃ len, scen.read_u8 (st.cursor + 1) = .ok len ∧ st'.cursor = st.cursor + (1 + 1 + len) := by
  unfold Disassembler.push_string at h
  cases hr : scen.read_u8 (st.cursor + 1) with
  | error e =>
      rw [hr, error_bind] at h
      exact absurd h (by simp)
  | ok len =>
      rw [hr, ok_bind] at h
      try dsimp only at h
      exact ⟨len, rfl, read_then_withAnalyzer_cursor h⟩

/-- A successful pass-1 step advances the cursor by the instruction length
(which in particular is defined at that offset). -/
theorem pass1_cursor (st : Disassembler) (scenario : Scenario) (st' : Disassembler)
    (h : st.routine_defination_pass scenario = .ok st') :
    ∃ L, instrLen scenario st.cursor = some L ∧ st'.cursor = st.cursor + L := by
  unfold Disassembler.routine_defination_pass at h
  unfold instrLen
  cases hb : scenario.read_u8 st.cursor with
  | error e =>
      rw [hb, error_bind] at h
      exact absurd h (by simp)
  | ok b =>
      rw [hb, ok_bind] at h
      try dsimp only
      cases hop : Opcode.tryFrom b with
      | none =>
          rw [hop] at h
          exact absurd h (by simp)
      | some op =>
          rw [hop] at h
          try dsimp only at h ⊢
          cases op <;> (try dsimp only at h ⊢) <;>
            first
            | (obtain ⟨len, hlen, hc⟩ := push_string_bypass_ok h
               rw [hlen]
               exact ⟨2 + len, rfl, by omega⟩)
            | (exact ⟨3, rfl, init_stack_bypass_ok_cursor h⟩)
            | (unfold Disassembler.one_byte_bypass at h
               injection h with h
               exact ⟨1, rfl, by rw [← h]⟩)
            | (unfold Disassembler.two_bytes_bypass at h
               injection h with h
               exact ⟨2, rfl, by rw [← h]⟩)
            | (unfold Disassembler.three_bytes_bypass at h
               injection h with h
               exact ⟨3, rfl, by rw [← h]⟩)
            | (unfold Disassembler.five_bytes_bypass at h
               injection h with h
               exact ⟨5, rfl, by rw [← h]⟩)

/-- A successful pass-2 step advances the cursor by the same instruction
length, whenever that length is defined (i.e. the opcode is known). -/
theorem pass2_cursor (st : Disassembler) (scenario : Scenario) (st' : Disassembler) (L : Nat)
    (hL : instrLen scenario st.cursor = some L)
    (h : st.disassemble_pass scenario = .ok st') :
    st'.cursor = st.cursor + L := by
  unfold Disassembler.disassemble_pass at h
  unfold instrLen at hL
  cases hb : scenario.read_u8 st.cursor with
  | error e =>
      rw [hb] at hL
      exact absurd hL (by simp)
  | ok b =>
      rw [hb, ok_bind] at h
      rw [hb] at hL
      try dsimp only at hL
      cases hop : Opcode.tryFrom b with
      | none =>
          rw [hop] at hL
          exact absurd hL (by simp)
      | some op =>
          rw [hop] at h hL
          cases op <;> (try dsimp only at h hL) <;>
            first
            | (obtain ⟨len, hlen, hc⟩ := push_string_ok h
               rw [hlen] at hL
               try dsimp only at hL
               injection hL with hL
               omega)
            | (injection hL with hL
               subst hL
               first
               | (exact nop_ok_cursor h)
               | (exact init_stack_ok_cursor h)
               | (exact call_ok_cursor h)
               | (exact syscall_ok_cursor h)
               | (exact ret_ok_cursor h)
               | (exact retv_ok_cursor h)
               | (exact jmp_ok_cursor h)
               | (exact jz_ok_cursor h)
               | (exact withAnalyzer_ok_cursor h)
               | (exact read_then_withAnalyzer_cursor h)
               | (exact pop_global_ok_cursor h)
               | (exact local_copy_ok_cursor h)
               | (exact pop_global_table_ok_cursor h)
               | (exact pop_local_table_ok_cursor h))

/-- Once the cursor has reached the routine-stream end, pass 2 stops
immediately with its state unchanged, whatever the fuel. -/
theorem pass2Run_of_stop (scenario : Scenario) (fuel : Nat) (st : Disassembler)
    (h : ¬ st.cursor < scenario.get_sys_desc_offset) :
    pass2Run scenario fuel st = .ok st := by
  cases fuel <;> unfold pass2Run <;> rw [if_neg h]

/-- Core of C5: two runs, one per pass, started at the same cursor over the
same scenario, end at the same cursor when both complete. -/
theorem pass_runs_cursor_eq (scenario : Scenario) (f1 : Nat) :
    ∀ (f2 : Nat) (st1 st2 r1 r2 : Disassembler),
      st1.cursor = st2.cursor →
      pass1Run scenario f1 st1 = .ok r1 →
      pass2Run scenario f2 st2 = .ok r2 →
      r1.cursor = r2.cursor := by
  induction f1 with
  | zero =>
      intro f2 st1 st2 r1 r2 hc h1 h2
      unfold pass1Run at h1
      by_cases hlt : st1.cursor < scenario.get_sys_desc_offset
      · rw [if_pos hlt] at h1
        exact absurd h1 (by simp)
      · rw [if_neg hlt] at h1
        injection h1 with h1
        have hstop : ¬ st2.cursor < scenario.get_sys_desc_offset := by omega
        have h2' := pass2Run_of_stop scenario f2 st2 hstop
        rw [h2'] at h2
        injection h2 with h2
        rw [← h1, ← h2]
        exact hc
  | succ n ih =>
      intro f2 st1 st2 r1 r2 hc h1 h2
      unfold pass1Run at h1
      by_cases hlt : st1.cursor < scenario.get_sys_desc_offset
      · rw [if_pos hlt] at h1
        cases hs1 : st1.routine_defination_pass scenario with
        | error e =>
            rw [hs1, error_bind] at h1
            exact absurd h1 (by simp)
        | ok st1' =>
            rw [hs1, ok_bind] at h1
            obtain ⟨L, hiL, hc1⟩ := pass1_cursor st1 scenario st1' hs1
            cases f2 with
            | zero =>
                unfold pass2Run at h2
                rw [if_pos (show st2.cursor < scenario.get_sys_desc_offset by omega)] at h2
                exact absurd h2 (by simp)
            | succ g =>
                unfold pass2Run at h2
                rw [if_pos (show st2.cursor < scenario.get_sys_desc_offset by omega)] at h2
                cases hs2 : st2.disassemble_pass scenario with
                | error e =>
                    rw [hs2, error_bind] at h2
                    exact absurd h2 (by simp)
                | ok st2' =>
                    rw [hs2, ok_bind] at h2
                    have hiL2 : instrLen scenario st2.cursor = some L := by
                      rw [← hc]
                      exact hiL
                    have hc2 := pass2_cursor st2 scenario st2' L hiL2 hs2
                    exact ih g st1' st2' r1 r2 (by omega) h1 h2
      · rw [if_neg hlt] at h1
        injection h1 with h1
        have hstop : ¬ st2.cursor < scenario.get_sys_desc_offset := by omega
        have h2' := pass2Run_of_stop scenario f2 st2 hstop
        rw [h2'] at h2
        injection h2 with h2
        rw [← h1, ← h2]
        exact hc

/-- C5: when pass 1 (from the initial state, cursor 4) and pass 2 (from the
rewound state, cursor 4 again) both run to completion over the same buffer,
they end at exactly the same final cursor: each opcode advances the cursor
by the same byte count in both passes, and both loops stop at the
routine-stream end offset. -/
theorem c5_two_passes_same_final_cursor (scenario : Scenario) (fuel1 fuel2 : Nat)
    (r1 r2 : Disassembler)
    (h1 : pass1Run scenario fuel1 Disassembler.initState = .ok r1)
    (h2 : pass2Run scenario fuel2 r1.rewind = .ok r2) :
    r1.cursor = r2.cursor :=
  pass_runs_cursor_eq scenario fuel1 fuel2 Disassembler.initState r1.rewind r1 r2 rfl h1 h2

/-- C5 (witness). -/
theorem c5_witness :
    ∃ r1 r2, pass1Run c5Scenario 2 Disassembler.initState = .ok r1 ∧
      pass2Run c5Scenario 2 r1.rewind = .ok r2 ∧ r1.cursor = r2.cursor :=
  ⟨_, _, rfl, rfl, c5_two_passes_same_final_cursor c5Scenario 2 2 _ _ rfl rfl⟩

end Rfvp
